import Mathlib

/-!
Verification development for the AWSL language core (lexer/parser/AST/evaluator).

The Go sources are shallowly embedded:
- machine integers (int64, int) are modelled as Int (no claim involves overflow);
- float64 is modelled as Rat; the only float facts proved are exact at the
  inputs involved (a zero-divisor test), where float64 and Rat agree;
- the mutable Environment chain (frames linked by pointers) is modelled as a
  heap: a list of frames indexed by allocation order, with an optional outer
  index; Go map stores are modelled as association lists;
- Go panics (the unguarded type assertion in evalIf) surface as the Outcome.crash
  result; the non-structural recursion of the interpreter and of the
  recursive-descent parser is made total with a fuel parameter (Outcome.fuelOut /
  a none result when the fuel runs out).
-/

set_option linter.unusedVariables false

namespace Awsl

/-- TokenType is a string tag, as in token.go. -/
abbrev TokenType := String

/-- Token with type, literal and 1-based position (token.go). -/
structure Token where
  type    : TokenType
  literal : String
  line    : Int
  column  : Int
  deriving Repr, DecidableEq

namespace Tk

def ILLEGAL  : TokenType := "ILLEGAL"
def EOF      : TokenType := "EOF"
def IDENT    : TokenType := "IDENT"
def INT      : TokenType := "INT"
def FLOAT    : TokenType := "FLOAT"
def STRING   : TokenType := "STRING"
def ASSIGN   : TokenType := "="
def PLUS     : TokenType := "+"
def MINUS    : TokenType := "-"
def BANG     : TokenType := "!"
def ASTERISK : TokenType := "*"
def SLASH    : TokenType := "/"
def LT       : TokenType := "<"
def GT       : TokenType := ">"
def EQ       : TokenType := "=="
def NOT_EQ   : TokenType := "!="
def LTE      : TokenType := "<="
def GTE      : TokenType := ">="
def OR       : TokenType := "||"
def AND      : TokenType := "&&"
def COMMA     : TokenType := ","
def SEMICOLON : TokenType := ";"
def COLON     : TokenType := ":"
def DOT       : TokenType := "."
def PIPE      : TokenType := "|"
def LPAREN    : TokenType := "("
def RPAREN    : TokenType := ")"
def LBRACE    : TokenType := "\x7b"
def RBRACE    : TokenType := "\x7d"
def LBRACKET  : TokenType := "["
def RBRACKET  : TokenType := "]"
def FUNCTION : TokenType := "FUNCTION"
def TRUE     : TokenType := "TRUE"
def FALSE    : TokenType := "FALSE"
def NULL     : TokenType := "NULL"
def IF       : TokenType := "IF"
def ELSE     : TokenType := "ELSE"
def FOR      : TokenType := "FOR"
def IN       : TokenType := "IN"
def RETURN   : TokenType := "RETURN"
def PROFILE  : TokenType := "PROFILE"
def REGION   : TokenType := "REGION"

end Tk

/-- Position (ast.go). Every AST node carries its leading Token and its
Pos() is that token's line/column. -/
structure Position where
  line   : Int
  column : Int
  deriving Repr, DecidableEq

def Token.pos (t : Token) : Position := ⟨t.line, t.column⟩

/- AST (ast.go). Each constructor stores the Token the Go node stores; the
rendering String() methods are not needed by any claim and are omitted. -/

mutual

/-- Expressions of ast.go. PrefixExpression/InfixExpression keep both the
operator literal (Operator field) and the Token (whose Type drives evaluator
dispatch). An Argument is positional (name = none) or named. -/
inductive Expr where
  | identifier     (tok : Token) (value : String)
  | integerLiteral (tok : Token) (value : Int)
  | floatLiteral   (tok : Token) (value : Rat)
  | stringLiteral  (tok : Token) (value : String)
  | booleanLiteral (tok : Token) (value : Bool)
  | nullLiteral    (tok : Token)
  | prefixExpr     (tok : Token) (operator : String) (right : Expr)
  | infixExpr      (tok : Token) (left : Expr) (operator : String) (right : Expr)
  | callExpr       (tok : Token) (function : Expr) (arguments : List Argument)
  | indexExpr      (tok : Token) (left : Expr) (index : Expr)
  | memberExpr     (tok : Token) (object : Expr) (member : String)
  | pipeExpr       (tok : Token) (left : Expr) (format : String)
  | listLiteral    (tok : Token) (elements : List Expr)
  | objectLiteral  (tok : Token) (pairs : List ObjectPair)
  | groupedExpr    (tok : Token) (expression : Expr)
  deriving Repr

/-- Argument of a CallExpression (ast.go): optional name, value. -/
inductive Argument where
  | mk (name : Option String) (value : Expr)
  deriving Repr

/-- Key/value pair of an ObjectLiteral (ast.go); the key is the identifier text. -/
inductive ObjectPair where
  | mk (key : String) (value : Expr)
  deriving Repr

end

def Argument.value : Argument → Expr
  | .mk _ v => v

def ObjectPair.key : ObjectPair → String
  | .mk k _ => k

def ObjectPair.value : ObjectPair → Expr
  | .mk _ v => v

mutual

/-- Statements of ast.go. BlockStatement is the separate type Block, as in
the source where IfStatement.Consequence etc. are *BlockStatement. -/
inductive Stmt where
  | exprStmt    (tok : Token) (expression : Expr)
  | assignStmt  (tok : Token) (name : String) (value : Expr)
  | contextStmt (tok : Token) (value : String)
  | blockStmt   (block : Block)
  | ifStmt      (tok : Token) (condition : Expr) (consequence : Block)
                (alternative : Option Block)
  | forStmt     (tok : Token) (iterator : String) (iterable : Expr) (body : Block)
  | returnStmt  (tok : Token) (value : Option Expr)
  | funcDecl    (tok : Token) (name : String) (parameters : List String) (body : Block)
  deriving Repr

/-- BlockStatement of ast.go: brace token plus statements. -/
inductive Block where
  | mk (tok : Token) (statements : List Stmt)
  deriving Repr

end

def Block.statements : Block → List Stmt
  | .mk _ s => s

/-- Program root node (ast.go). -/
structure Program where
  statements : List Stmt
  deriving Repr

/-- Pos() of an expression node: position of its token (ast.go). -/
def Expr.pos : Expr → Position
  | .identifier tok _ | .integerLiteral tok _ | .floatLiteral tok _
  | .stringLiteral tok _ | .booleanLiteral tok _ | .nullLiteral tok
  | .prefixExpr tok _ _ | .infixExpr tok _ _ _ | .callExpr tok _ _
  | .indexExpr tok _ _ | .memberExpr tok _ _ | .pipeExpr tok _ _
  | .listLiteral tok _ | .objectLiteral tok _ | .groupedExpr tok _ => tok.pos

/-- Pos() of a statement node (ast.go). -/
def Stmt.pos : Stmt → Position
  | .exprStmt tok _ | .assignStmt tok _ _ | .contextStmt tok _
  | .ifStmt tok _ _ _ | .forStmt tok _ _ _ | .returnStmt tok _
  | .funcDecl tok _ _ _ => tok.pos
  | .blockStmt (.mk tok _) => tok.pos

/- Runtime objects (object.go). -/

/-- Object type tags (object.go constants). -/
def INTEGER_OBJ      : String := "INTEGER"
def FLOAT_OBJ        : String := "FLOAT"
def STRING_OBJ       : String := "STRING"
def BOOLEAN_OBJ      : String := "BOOLEAN"
def NULL_OBJ         : String := "NULL"
def ERROR_OBJ        : String := "ERROR"
def BUILTIN_OBJ      : String := "BUILTIN"
def LIST_OBJ         : String := "LIST"
def FUNCTION_OBJ     : String := "FUNCTION"
def RETURN_VALUE_OBJ : String := "RETURN_VALUE"
def HASH_OBJ         : String := "HASH"

/-- Runtime values (object.go). A Function captures its defining environment
as a heap index (the Go *Environment pointer). TRUE/FALSE/NULL are the
singleton values boolean true / boolean false / null: in Go they are
reference-identical singletons, so structural equality on these variants
coincides with Go pointer equality. -/
inductive Object where
  | integer     (value : Int)
  | float       (value : Rat)
  | string      (value : String)
  | boolean     (value : Bool)
  | null
  | error       (message : String) (line : Int) (column : Int)
  | builtin     (name : String)
  | list        (elements : List Object)
  | function    (parameters : List String) (body : Block) (env : Nat)
  | returnValue (value : Object)
  | hash        (pairs : List (String × Object))
  deriving Repr

/-- Type() of an object (object.go). -/
def Object.typeOf : Object → String
  | .integer _     => INTEGER_OBJ
  | .float _       => FLOAT_OBJ
  | .string _      => STRING_OBJ
  | .boolean _     => BOOLEAN_OBJ
  | .null          => NULL_OBJ
  | .error _ _ _   => ERROR_OBJ
  | .builtin _     => BUILTIN_OBJ
  | .list _        => LIST_OBJ
  | .function _ _ _ => FUNCTION_OBJ
  | .returnValue _ => RETURN_VALUE_OBJ
  | .hash _        => HASH_OBJ

/-- The TRUE singleton (object.go). -/
def TRUE : Object := .boolean true

/-- The FALSE singleton (object.go). -/
def FALSE : Object := .boolean false

/-- The NULL singleton (object.go). -/
def NULL : Object := .null

/- Environment (env.go), modelled as a heap of frames. A frame is the store
map (association list) together with the optional outer pointer (heap index).
The stdout writer held by the Go Environment is modelled as the output list
in EvalState below, shared by all frames as in the source (enclosed
environments inherit the outer stdout). -/

/-- One scope frame of env.go Environment. -/
structure Frame where
  store : List (String × Object)
  outer : Option Nat
  deriving Repr

/-- Association-list lookup, modelling a Go map read. -/
def storeGet (store : List (String × Object)) (name : String) : Option Object :=
  match store with
  | [] => none
  | (k, v) :: rest => if k = name then some v else storeGet rest name

/-- Association-list update/insert, modelling a Go map write. -/
def storePut (store : List (String × Object)) (name : String) (val : Object) :
    List (String × Object) :=
  match store with
  | [] => [(name, val)]
  | (k, v) :: rest =>
    if k = name then (k, val) :: rest else (k, v) :: storePut rest name val

/-- The whole interpreter state: the environment heap (frames indexed by
allocation order), the text written to the stdout sink, and the current Unix
time (read by the clock builtin; time.Now() is modelled as this field). -/
structure EvalState where
  envs : List Frame
  out  : List String
  now  : Int
  deriving Repr

def EvalState.frame? (s : EvalState) (id : Nat) : Option Frame :=
  s.envs.get? id

/-- Replace frame id by applying f to it (models mutation through the Go
pointer). -/
def EvalState.updFrame (s : EvalState) (id : Nat) (f : Frame → Frame) : EvalState :=
  match s.envs.get? id with
  | none => s
  | some fr => { s with envs := s.envs.set id (f fr) }

/-- NewEnvironment (env.go): a fresh empty frame with no outer scope.
Returns the new frame id and the grown state. -/
def newEnvironment (s : EvalState) : Nat × EvalState :=
  (s.envs.length, { s with envs := s.envs ++ [⟨[], none⟩] })

/-- NewEnclosedEnvironment (env.go): a fresh empty frame whose outer scope is
the given frame. -/
def newEnclosedEnvironment (s : EvalState) (outer : Nat) : Nat × EvalState :=
  (s.envs.length, { s with envs := s.envs ++ [⟨[], some outer⟩] })

/-- Environment.Get (env.go): search the current store, then walk outward.
The walk is fuel-bounded; a fuel of s.envs.length is enough for every chain
built by the allocators above, whose outer indices strictly decrease. -/
def envGetAux : Nat → EvalState → Nat → String → Option Object
  | 0, _, _, _ => none
  | fuel + 1, s, id, name =>
    match s.frame? id with
    | none => none
    | some fr =>
      match storeGet fr.store name with
      | some v => some v
      | none =>
        match fr.outer with
        | some oid => envGetAux fuel s oid name
        | none => none

def envGet (s : EvalState) (id : Nat) (name : String) : Option Object :=
  envGetAux (s.envs.length + 1) s id name

/-- Environment.Has (env.go): name bound in this frame or any outer frame. -/
def envHasAux : Nat → EvalState → Nat → String → Bool
  | 0, _, _, _ => false
  | fuel + 1, s, id, name =>
    match s.frame? id with
    | none => false
    | some fr =>
      match storeGet fr.store name with
      | some _ => true
      | none =>
        match fr.outer with
        | some oid => envHasAux fuel s oid name
        | none => false

def envHas (s : EvalState) (id : Nat) (name : String) : Bool :=
  envHasAux (s.envs.length + 1) s id name

/-- Environment.Set (env.go): update in the current store if the name is
bound there; otherwise, if some outer frame has the name, update outward;
otherwise create the binding in the current store. -/
def envSetAux : Nat → EvalState → Nat → String → Object → EvalState
  | 0, s, _, _, _ => s
  | fuel + 1, s, id, name, val =>
    match s.frame? id with
    | none => s
    | some fr =>
      match storeGet fr.store name with
      | some _ => s.updFrame id (fun f => { f with store := storePut f.store name val })
      | none =>
        match fr.outer with
        | some oid =>
          if envHas s oid name then envSetAux fuel s oid name val
          else s.updFrame id (fun f => { f with store := storePut f.store name val })
        | none => s.updFrame id (fun f => { f with store := storePut f.store name val })

def envSet (s : EvalState) (id : Nat) (name : String) (val : Object) : EvalState :=
  envSetAux (s.envs.length + 1) s id name val

/-- Environment.SetLocal (env.go): always bind in the current frame. -/
def envSetLocal (s : EvalState) (id : Nat) (name : String) (val : Object) : EvalState :=
  s.updFrame id (fun f => { f with store := storePut f.store name val })

/- Evaluator (eval.go). -/

/-- Result of one evaluation: the Go Eval returns an Object and mutates the
environment; crash models a host-level panic (the unguarded type assertion of
evalIf); fuelOut is the artifact of the fuel-bounded embedding. -/
inductive Outcome where
  | ok (value : Object) (s : EvalState)
  | crash
  | fuelOut
  deriving Repr

/-- Result of a loop that accumulates values (evalArguments returns
([]Object, *Error); the list-literal and object-literal element loops exit
either with the collected values or with the first error object). -/
inductive ResList (α : Type) where
  | ok (values : α) (s : EvalState)
  | errorOut (err : Object) (s : EvalState)
  | crash
  | fuelOut
  deriving Repr

/-- newError (eval.go): an Error object carrying the node position. -/
def newError (pos : Position) (msg : String) : Object :=
  .error msg pos.line pos.column

/-- isError (eval.go). -/
def isError (o : Object) : Bool :=
  o.typeOf = ERROR_OBJ

/-- nativeBoolToBooleanObject (eval.go): the TRUE/FALSE singletons. -/
def nativeBoolToBooleanObject (b : Bool) : Object :=
  if b then TRUE else FALSE

/-- isTruthy (eval.go): Boolean is its value, Null is false, all else true. -/
def isTruthy : Object → Bool
  | .boolean b => b
  | .null => false
  | _ => true

/-- unwrapReturnValue (eval.go). -/
def unwrapReturnValue : Object → Object
  | .returnValue v => v
  | o => o

/-- evalBangOperator (eval.go): switch on the TRUE/FALSE/NULL singletons. -/
def evalBangOperator : Object → Object
  | .boolean true => FALSE
  | .boolean false => TRUE
  | .null => TRUE
  | _ => FALSE

/-- evalMinusPrefixOperator (eval.go). -/
def evalMinusPrefixOperator (right : Object) (pos : Position) : Object :=
  match right with
  | .integer v => .integer (-v)
  | .float v => .float (-v)
  | _ => newError pos ("unknown operator: -" ++ right.typeOf)

/-- evalIntegerInfixExpression (eval.go). The two leading type assertions of
the Go function are total at its only call site (both operands are INTEGER),
so the unwrapped values are taken as arguments. int64 division truncates
toward zero, hence Int.tdiv. -/
def evalIntegerInfixExpression (op : TokenType) (leftVal rightVal : Int)
    (pos : Position) : Object :=
  if op = Tk.PLUS then .integer (leftVal + rightVal)
  else if op = Tk.MINUS then .integer (leftVal - rightVal)
  else if op = Tk.ASTERISK then .integer (leftVal * rightVal)
  else if op = Tk.SLASH then
    if rightVal = 0 then newError pos "division by zero"
    else .integer (Int.tdiv leftVal rightVal)
  else if op = Tk.LT then nativeBoolToBooleanObject (leftVal < rightVal)
  else if op = Tk.GT then nativeBoolToBooleanObject (leftVal > rightVal)
  else if op = Tk.LTE then nativeBoolToBooleanObject (leftVal ≤ rightVal)
  else if op = Tk.GTE then nativeBoolToBooleanObject (leftVal ≥ rightVal)
  else if op = Tk.EQ then nativeBoolToBooleanObject (leftVal = rightVal)
  else if op = Tk.NOT_EQ then nativeBoolToBooleanObject (leftVal ≠ rightVal)
  else newError pos ("unknown operator: INTEGER " ++ op ++ " INTEGER")

/-- evalFloatInfixExpression (eval.go); float64 modelled as Rat, exact for
the zero-divisor test the claims exercise. -/
def evalFloatInfixExpression (op : TokenType) (leftVal rightVal : Rat)
    (pos : Position) : Object :=
  if op = Tk.PLUS then .float (leftVal + rightVal)
  else if op = Tk.MINUS then .float (leftVal - rightVal)
  else if op = Tk.ASTERISK then .float (leftVal * rightVal)
  else if op = Tk.SLASH then
    if rightVal = 0 then newError pos "division by zero"
    else .float (leftVal / rightVal)
  else if op = Tk.LT then nativeBoolToBooleanObject (leftVal < rightVal)
  else if op = Tk.GT then nativeBoolToBooleanObject (leftVal > rightVal)
  else if op = Tk.LTE then nativeBoolToBooleanObject (leftVal ≤ rightVal)
  else if op = Tk.GTE then nativeBoolToBooleanObject (leftVal ≥ rightVal)
  else if op = Tk.EQ then nativeBoolToBooleanObject (leftVal = rightVal)
  else if op = Tk.NOT_EQ then nativeBoolToBooleanObject (leftVal ≠ rightVal)
  else newError pos ("unknown operator: FLOAT " ++ op ++ " FLOAT")

/-- evalStringInfixExpression (eval.go). -/
def evalStringInfixExpression (op : TokenType) (leftVal rightVal : String)
    (pos : Position) : Object :=
  if op = Tk.PLUS then .string (leftVal ++ rightVal)
  else if op = Tk.EQ then nativeBoolToBooleanObject (leftVal = rightVal)
  else if op = Tk.NOT_EQ then nativeBoolToBooleanObject (leftVal ≠ rightVal)
  else newError pos ("unknown operator: STRING " ++ op ++ " STRING")

/-- Go pointer equality of two Object interface values, used by the ==/!=
fallback of evalInfixExpression. It is exact on the singleton Boolean and
Null objects and on the per-name Builtin singletons, which are the only
shared allocations the evaluator produces; any other pair of values reaching
this fallback lives in distinct allocations in Go and compares false.
Aliasing of composite values (two references to one List) is not tracked by
this embedding; no claim depends on it. -/
def ptrEq : Object → Object → Bool
  | .boolean a, .boolean b => a = b
  | .null, .null => true
  | .builtin a, .builtin b => a = b
  | _, _ => false

/-- The type-pair dispatch of evalInfixExpression (eval.go) after both
operands evaluated without error: a pure function of the operator token and
the two values. -/
def evalInfixCombine (tok : Token) (left right : Object) : Object :=
  let pos := tok.pos
  let op := tok.type
  match left, right with
  | .integer a, .integer b => evalIntegerInfixExpression op a b pos
  | .float a, .float b => evalFloatInfixExpression op a b pos
  | .string a, .string b => evalStringInfixExpression op a b pos
  | l, r =>
    if op = Tk.EQ then nativeBoolToBooleanObject (ptrEq l r)
    else if op = Tk.NOT_EQ then nativeBoolToBooleanObject (!ptrEq l r)
    else if op = Tk.OR then nativeBoolToBooleanObject (isTruthy l || isTruthy r)
    else if op = Tk.AND then nativeBoolToBooleanObject (isTruthy l && isTruthy r)
    else if l.typeOf ≠ r.typeOf then
      newError pos ("type mismatch: " ++ l.typeOf ++ " " ++ tok.literal ++ " " ++ r.typeOf)
    else
      newError pos ("unknown operator: " ++ l.typeOf ++ " " ++ tok.literal ++ " " ++ r.typeOf)

mutual

/-- Inspect (object.go). Hash iteration order, nondeterministic over a Go
map, is the insertion order here; the %g rendering of float64 is not
reproduced (no claim reads it). -/
def inspect : Object → String
  | .integer v => toString v
  | .float v => toString v
  | .string v => v
  | .boolean b => if b then "true" else "false"
  | .null => "null"
  | .error m l c =>
    "error at line " ++ toString l ++ ", column " ++ toString c ++ ": " ++ m
  | .builtin n => "builtin:" ++ n
  | .list es => "[" ++ String.intercalate ", " (inspectList es) ++ "]"
  | .function ps _ _ => "fn(" ++ String.intercalate ", " ps ++ ") \x7b...\x7d"
  | .returnValue v => inspect v
  | .hash ps => "\x7b" ++ String.intercalate ", " (inspectPairs ps) ++ "\x7d"

/-- Inspect of each list element. -/
def inspectList : List Object → List String
  | [] => []
  | e :: rest => inspect e :: inspectList rest

/-- Inspect of each hash pair as key: value. -/
def inspectPairs : List (String × Object) → List String
  | [] => []
  | (k, v) :: rest => (k ++ ": " ++ inspect v) :: inspectPairs rest

end

/-- builtinPrint (builtins.go): writes the space-joined Inspect renderings
plus a newline to the stdout sink and returns NULL. -/
def builtinPrint (args : List Object) (s : EvalState) : Outcome :=
  .ok NULL { s with out := s.out ++ [String.intercalate " " (args.map inspect) ++ "\n"] }

/-- builtinClock (builtins.go): the current Unix time as an Integer;
time.Now().Unix() is modelled by the now field of the state. -/
def builtinClock (s : EvalState) : Outcome :=
  .ok (.integer s.now) s

/-- Dispatch on the Fn field of a Builtin object. RegisterBuiltins
(builtins.go) creates exactly the print and clock builtins, so those are the
only names a Builtin object can carry; the final arm is unreachable. -/
def builtinDispatch (name : String) (args : List Object) (s : EvalState) : Outcome :=
  if name = "print" then builtinPrint args s
  else if name = "clock" then builtinClock s
  else .ok NULL s

/-- RegisterBuiltins (builtins.go). The Go loop iterates the Builtins map in
unspecified order; the two Set calls are on distinct names and commute. -/
def registerBuiltins (s : EvalState) (id : Nat) : EvalState :=
  envSet (envSet s id "print" (.builtin "print")) id "clock" (.builtin "clock")

/-- extendFunctionEnv (eval.go): a new environment enclosed in the captured
closure environment, with each parameter bound positionally via
Environment.Set (the outward-searching Set, exactly as in the source). -/
def extendFunctionEnv (s : EvalState) (fnEnv : Nat) (params : List String)
    (args : List Object) : Nat × EvalState :=
  let (id, s1) := newEnclosedEnvironment s fnEnv
  (id, bindParams s1 id (params.zip args))
where
  bindParams (s : EvalState) (id : Nat) : List (String × Object) → EvalState
    | [] => s
    | (p, a) :: rest => bindParams (envSet s id p a) id rest

/-- Modelled from the spec: evaluation of an IndexExpression once both sides
are values. The evaluator case for ast.IndexExpression is absent from the
sources provided (only its tests are present); section 4.3 of the spec gives
the rule: List with integer index, negative indices counting from the end,
out-of-range is the index-out-of-bounds error; String with integer index
yields a 1-character substring with the same rules; Hash with string key,
missing key is Null; every other combination is the index-operator-not-
supported error. -/
def evalIndexOperation (left index : Object) (pos : Position) : Object :=
  match left, index with
  | .list elems, .integer i =>
    let n : Int := elems.length
    let adj : Int := if i < 0 then n + i else i
    if 0 ≤ adj ∧ adj < n then ((elems.get? adj.toNat).getD NULL)
    else newError pos ("index out of bounds: " ++ toString i ++ " (length: " ++ toString n ++ ")")
  | .string str, .integer i =>
    let n : Int := str.length
    let adj : Int := if i < 0 then n + i else i
    if 0 ≤ adj ∧ adj < n then .string (String.mk [((str.data.get? adj.toNat).getD " ".front)])
    else newError pos ("index out of bounds: " ++ toString i ++ " (length: " ++ toString n ++ ")")
  | .hash pairs, .string k =>
    match storeGet pairs k with
    | some v => v
    | none => NULL
  | l, i =>
    newError pos ("index operator not supported: " ++ l.typeOf ++ "[" ++ i.typeOf ++ "]")

mutual

/-- Eval on expression nodes (eval.go), fuel-bounded. MemberExpression and
PipeExpression have no case in the Eval switch and fall to the
unknown-node-type default; ObjectLiteral and IndexExpression evaluation is
modelled from the spec (see evalIndexOperation / evalPairs). -/
def evalExpr : Nat → Expr → Nat → EvalState → Outcome
  | 0, _, _, _ => .fuelOut
  | fuel + 1, e, id, s =>
    match e with
    | .identifier tok name =>
      match envGet s id name with
      | some v => .ok v s
      | none => .ok (newError tok.pos ("undefined variable: " ++ name)) s
    | .integerLiteral _ v => .ok (.integer v) s
    | .floatLiteral _ v => .ok (.float v) s
    | .stringLiteral _ v => .ok (.string v) s
    | .booleanLiteral _ v => .ok (nativeBoolToBooleanObject v) s
    | .nullLiteral _ => .ok NULL s
    | .listLiteral _ elems =>
      match evalListElems fuel elems id s with
      | .ok vs s1 => .ok (.list vs) s1
      | .errorOut err s1 => .ok err s1
      | .crash => .crash
      | .fuelOut => .fuelOut
    | .objectLiteral _ pairs =>
      match evalPairs fuel pairs id s with
      | .ok ps s1 => .ok (.hash ps) s1
      | .errorOut err s1 => .ok err s1
      | .crash => .crash
      | .fuelOut => .fuelOut
    | .groupedExpr _ inner => evalExpr fuel inner id s
    | .prefixExpr tok _ right =>
      match evalExpr fuel right id s with
      | .ok rv s1 =>
        if isError rv then .ok rv s1
        else if tok.type = Tk.BANG then .ok (evalBangOperator rv) s1
        else if tok.type = Tk.MINUS then .ok (evalMinusPrefixOperator rv tok.pos) s1
        else .ok (newError tok.pos ("unknown operator: " ++ tok.literal ++ rv.typeOf)) s1
      | .crash => .crash
      | .fuelOut => .fuelOut
    | .infixExpr tok left _ right =>
      match evalExpr fuel left id s with
      | .ok lv s1 =>
        if isError lv then .ok lv s1
        else
          match evalExpr fuel right id s1 with
          | .ok rv s2 =>
            if isError rv then .ok rv s2
            else .ok (evalInfixCombine tok lv rv) s2
          | .crash => .crash
          | .fuelOut => .fuelOut
      | .crash => .crash
      | .fuelOut => .fuelOut
    | .callExpr tok fn args =>
      match evalExpr fuel fn id s with
      | .ok fv s1 =>
        if isError fv then .ok fv s1
        else
          match evalArguments fuel args id s1 with
          | .ok argVals s2 => applyFunction fuel fv argVals tok.pos s2
          | .errorOut err s2 => .ok err s2
          | .crash => .crash
          | .fuelOut => .fuelOut
      | .crash => .crash
      | .fuelOut => .fuelOut
    | .indexExpr tok left index =>
      match evalExpr fuel left id s with
      | .ok lv s1 =>
        if isError lv then .ok lv s1
        else
          match evalExpr fuel index id s1 with
          | .ok iv s2 =>
            if isError iv then .ok iv s2
            else .ok (evalIndexOperation lv iv tok.pos) s2
          | .crash => .crash
          | .fuelOut => .fuelOut
      | .crash => .crash
      | .fuelOut => .fuelOut
    | .memberExpr tok _ _ =>
      .ok (newError tok.pos "unknown node type: *ast.MemberExpression") s
    | .pipeExpr tok _ _ =>
      .ok (newError tok.pos "unknown node type: *ast.PipeExpression") s
termination_by structural fuel e id s => fuel

/-- evalArguments (eval.go): left to right, aborting on the first error. -/
def evalArguments : Nat → List Argument → Nat → EvalState → ResList (List Object)
  | 0, _, _, _ => .fuelOut
  | fuel + 1, args, id, s =>
    match args with
    | [] => .ok [] s
    | a :: rest =>
      match evalExpr fuel a.value id s with
      | .ok v s1 =>
        if isError v then .errorOut v s1
        else
          match evalArguments fuel rest id s1 with
          | .ok vs s2 => .ok (v :: vs) s2
          | .errorOut err s2 => .errorOut err s2
          | .crash => .crash
          | .fuelOut => .fuelOut
      | .crash => .crash
      | .fuelOut => .fuelOut
termination_by structural fuel args id s => fuel

/-- The element loop of evalListLiteral (eval.go). -/
def evalListElems : Nat → List Expr → Nat → EvalState → ResList (List Object)
  | 0, _, _, _ => .fuelOut
  | fuel + 1, elems, id, s =>
    match elems with
    | [] => .ok [] s
    | e :: rest =>
      match evalExpr fuel e id s with
      | .ok v s1 =>
        if isError v then .errorOut v s1
        else
          match evalListElems fuel rest id s1 with
          | .ok vs s2 => .ok (v :: vs) s2
          | .errorOut err s2 => .errorOut err s2
          | .crash => .crash
          | .fuelOut => .fuelOut
      | .crash => .crash
      | .fuelOut => .fuelOut
termination_by structural fuel elems id s => fuel

/-- Modelled from the spec: the value loop of ObjectLiteral evaluation,
absent from the sources provided (only its tests are present). Each pair
value is evaluated left to right, failing eagerly on the first error, and
the Hash keeps the written key order. -/
def evalPairs : Nat → List ObjectPair → Nat → EvalState → ResList (List (String × Object))
  | 0, _, _, _ => .fuelOut
  | fuel + 1, pairs, id, s =>
    match pairs with
    | [] => .ok [] s
    | p :: rest =>
      match evalExpr fuel p.value id s with
      | .ok v s1 =>
        if isError v then .errorOut v s1
        else
          match evalPairs fuel rest id s1 with
          | .ok ps s2 => .ok ((p.key, v) :: ps) s2
          | .errorOut err s2 => .errorOut err s2
          | .crash => .crash
          | .fuelOut => .fuelOut
      | .crash => .crash
      | .fuelOut => .fuelOut
termination_by structural fuel pairs id s => fuel

/-- applyFunction (eval.go): user Function gets a new environment from
extendFunctionEnv, its body evaluated there, the result unwrapped; a Builtin
runs its native function; anything else is the not-a-function error. -/
def applyFunction : Nat → Object → List Object → Position → EvalState → Outcome
  | 0, _, _, _, _ => .fuelOut
  | fuel + 1, fn, args, pos, s =>
    match fn with
    | .function params body envId =>
      if args.length ≠ params.length then
        .ok (newError pos ("wrong number of arguments: expected " ++
          toString params.length ++ ", got " ++ toString args.length)) s
      else
        let (extId, s1) := extendFunctionEnv s envId params args
        match evalBlockStmts fuel body.statements extId s1 with
        | .ok v s2 => .ok (unwrapReturnValue v) s2
        | .crash => .crash
        | .fuelOut => .fuelOut
    | .builtin name => builtinDispatch name args s
    | _ => .ok (newError pos ("not a function: " ++ fn.typeOf)) s
termination_by structural fuel fn args pos s => fuel

/-- Eval on statement nodes (eval.go). ContextStatement has no case in the
Eval switch and falls to the unknown-node-type default. The condition of an
if statement is read through the unguarded Boolean type assertion: any
non-Boolean, non-Error condition is a host-level panic, modelled as crash. -/
def evalStmt : Nat → Stmt → Nat → EvalState → Outcome
  | 0, _, _, _ => .fuelOut
  | fuel + 1, st, id, s =>
    match st with
    | .exprStmt _ e => evalExpr fuel e id s
    | .assignStmt _ name value =>
      match evalExpr fuel value id s with
      | .ok v s1 =>
        if isError v then .ok v s1
        else .ok NULL (envSet s1 id name v)
      | .crash => .crash
      | .fuelOut => .fuelOut
    | .contextStmt tok _ =>
      .ok (newError tok.pos "unknown node type: *ast.ContextStatement") s
    | .blockStmt b => evalBlockStmts fuel b.statements id s
    | .ifStmt _ cond conseq alt =>
      match evalExpr fuel cond id s with
      | .ok cv s1 =>
        if isError cv then .ok cv s1
        else
          match cv with
          | .boolean b =>
            if b then evalBlockStmts fuel conseq.statements id s1
            else
              match alt with
              | some a => evalBlockStmts fuel a.statements id s1
              | none => .ok NULL s1
          | _ => .crash
      | .crash => .crash
      | .fuelOut => .fuelOut
    | .forStmt tok iter iterable body =>
      match evalExpr fuel iterable id s with
      | .ok iv s1 =>
        if isError iv then .ok iv s1
        else
          match iv with
          | .list elems =>
            let (loopId, s2) := newEnclosedEnvironment s1 id
            evalForIter fuel iter elems body loopId s2
          | _ => .ok (newError tok.pos ("cannot iterate over " ++ iv.typeOf)) s1
      | .crash => .crash
      | .fuelOut => .fuelOut
    | .returnStmt _ none => .ok (.returnValue NULL) s
    | .returnStmt _ (some e) =>
      match evalExpr fuel e id s with
      | .ok v s1 =>
        if isError v then .ok v s1
        else .ok (.returnValue v) s1
      | .crash => .crash
      | .fuelOut => .fuelOut
    | .funcDecl _ name params body =>
      .ok NULL (envSet s id name (.function params body id))
termination_by structural fuel st id s => fuel

/-- evalBlock (eval.go). The loop declares a fresh result for each
statement, shadowing the function-level result variable, so the value
returned after a completed loop is the untouched initial NULL; an error or a
ReturnValue produced by a statement returns early. -/
def evalBlockStmts : Nat → List Stmt → Nat → EvalState → Outcome
  | 0, _, _, _ => .fuelOut
  | fuel + 1, stmts, id, s =>
    match stmts with
    | [] => .ok NULL s
    | st :: rest =>
      match evalStmt fuel st id s with
      | .ok r s1 =>
        if isError r then .ok r s1
        else if r.typeOf = RETURN_VALUE_OBJ then .ok r s1
        else evalBlockStmts fuel rest id s1
      | .crash => .crash
      | .fuelOut => .fuelOut
termination_by structural fuel stmts id s => fuel

/-- The statement loop of evalProgram (eval.go): tracks the last value,
stopping only on errors. -/
def evalProgramStmts : Nat → List Stmt → Object → Nat → EvalState → Outcome
  | 0, _, _, _, _ => .fuelOut
  | fuel + 1, stmts, last, id, s =>
    match stmts with
    | [] => .ok last s
    | st :: rest =>
      match evalStmt fuel st id s with
      | .ok r s1 =>
        if isError r then .ok r s1
        else evalProgramStmts fuel rest r id s1
      | .crash => .crash
      | .fuelOut => .fuelOut
termination_by structural fuel stmts last id s => fuel

/-- The iteration loop of evalFor (eval.go): rebind the iterator in the one
loop environment via SetLocal, evaluate the body there, stop only on errors
(a ReturnValue does not break the loop in the source), NULL at the end. -/
def evalForIter : Nat → String → List Object → Block → Nat → EvalState → Outcome
  | 0, _, _, _, _, _ => .fuelOut
  | fuel + 1, iter, elems, body, loopId, s =>
    match elems with
    | [] => .ok NULL s
    | e :: rest =>
      let s1 := envSetLocal s loopId iter e
      match evalBlockStmts fuel body.statements loopId s1 with
      | .ok r s2 =>
        if isError r then .ok r s2
        else evalForIter fuel iter rest body loopId s2
      | .crash => .crash
      | .fuelOut => .fuelOut
termination_by structural fuel iter elems body loopId s => fuel

end

/-- evalProgram (eval.go): result starts at NULL. -/
def evalProgram (fuel : Nat) (p : Program) (id : Nat) (s : EvalState) : Outcome :=
  evalProgramStmts fuel p.statements NULL id s

/-- A whole run as the tests do it (eval_test.go testEval): a fresh
root environment, then Eval of the program. -/
def runProgram (fuel : Nat) (p : Program) : Outcome :=
  let s0 : EvalState := ⟨[], [], 0⟩
  let (gid, s1) := newEnvironment s0
  evalProgram fuel p gid s1

/-- The final value of a run, when it completes. -/
def runValue (fuel : Nat) (p : Program) : Option Object :=
  match runProgram fuel p with
  | .ok v _ => some v
  | _ => none

/- Concrete program fixtures for the claims. Tokens carry position 1,1;
the positions play no role in the properties below beyond being carried
into Error objects. -/

/-- A token at line 1, column 1. -/
def tk (t : TokenType) (lit : String) : Token := ⟨t, lit, 1, 1⟩

def eInt (n : Int) : Expr := .integerLiteral (tk Tk.INT (toString n)) n

def eId (n : String) : Expr := .identifier (tk Tk.IDENT n) n

def eList (es : List Expr) : Expr := .listLiteral (tk Tk.LBRACKET "[") es

/-- The program [1,2,3][-1]; (the minus is a prefix expression on the
literal 1, as the parser builds it). -/
def idxNegProg : Program := ⟨[.exprStmt (tk Tk.LBRACKET "[")
  (.indexExpr (tk Tk.LBRACKET "[") (eList [eInt 1, eInt 2, eInt 3])
    (.prefixExpr (tk Tk.MINUS "-") "-" (eInt 1)))]⟩

/-- The program [1,2,3][3]; -/
def idxOobProg : Program := ⟨[.exprStmt (tk Tk.LBRACKET "[")
  (.indexExpr (tk Tk.LBRACKET "[") (eList [eInt 1, eInt 2, eInt 3]) (eInt 3))]⟩

/-- The program that indexes an empty object literal with "missing". -/
def idxHashMissingProg : Program := ⟨[.exprStmt (tk Tk.LBRACE "\x7b")
  (.indexExpr (tk Tk.LBRACKET "[") (.objectLiteral (tk Tk.LBRACE "\x7b") [])
    (.stringLiteral (tk Tk.STRING "missing") "missing"))]⟩

/-- The program sum=0; for (x in [1,2,3]) with body sum = sum + x;
followed by sum; -/
def sumProg : Program := ⟨[
  .assignStmt (tk Tk.IDENT "sum") "sum" (eInt 0),
  .forStmt (tk Tk.FOR "for") "x" (eList [eInt 1, eInt 2, eInt 3])
    (.mk (tk Tk.LBRACE "\x7b") [
      .assignStmt (tk Tk.IDENT "sum") "sum"
        (.infixExpr (tk Tk.PLUS "+") (eId "sum") "+" (eId "x"))]),
  .exprStmt (tk Tk.IDENT "sum") (eId "sum")]⟩

/-- The program x = 1; fn f(x) with body return 0; then f(99); x; -/
def paramShadowProg : Program := ⟨[
  .assignStmt (tk Tk.IDENT "x") "x" (eInt 1),
  .funcDecl (tk Tk.FUNCTION "fn") "f" ["x"]
    (.mk (tk Tk.LBRACE "\x7b") [.returnStmt (tk Tk.RETURN "return") (some (eInt 0))]),
  .exprStmt (tk Tk.IDENT "f")
    (.callExpr (tk Tk.LPAREN "(") (eId "f") [.mk none (eInt 99)]),
  .exprStmt (tk Tk.IDENT "x") (eId "x")]⟩

/-- The program 10 / 0; -/
def divZeroIntProg : Program := ⟨[.exprStmt (tk Tk.INT "10")
  (.infixExpr (tk Tk.SLASH "/") (eInt 10) "/" (eInt 0))]⟩

/-- The program 10.0 / 0.0; -/
def divZeroFloatProg : Program := ⟨[.exprStmt (tk Tk.FLOAT "10.0")
  (.infixExpr (tk Tk.SLASH "/") (.floatLiteral (tk Tk.FLOAT "10.0") 10) "/"
    (.floatLiteral (tk Tk.FLOAT "0.0") 0))]⟩

/-- The program 1 && 2; -/
def intAndProg : Program := ⟨[.exprStmt (tk Tk.INT "1")
  (.infixExpr (tk Tk.AND "&&") (eInt 1) "&&" (eInt 2))]⟩

/- The C10 scenario: outer = Env(); outer.Set("x",10);
inner = Enclosed(outer); then SetLocal on inner. -/

def scopeOuter : Nat × EvalState := newEnvironment ⟨[], [], 0⟩

def scopeOuterSet : EvalState := envSet scopeOuter.2 scopeOuter.1 "x" (.integer 10)

def scopeInner : Nat × EvalState := newEnclosedEnvironment scopeOuterSet scopeOuter.1

def scopeAfterLocal : EvalState :=
  envSetLocal scopeInner.2 scopeInner.1 "x" (.integer 99)

/-- The empty initial state. -/
def st0 : EvalState := ⟨[], [], 0⟩

/-- A one-statement block holding the expression statement 5; . -/
def c5Block : List Stmt := [.exprStmt (tk Tk.INT "5") (eInt 5)]

/-- The expression true && 1 (non-homogeneous operand types). -/
def mixedAndExpr : Expr :=
  .infixExpr (tk Tk.AND "&&") (.booleanLiteral (tk Tk.TRUE "true") true) "&&" (eInt 1)

/-- The if statement if (true) with consequence 5; and no else. -/
def ifTrueStmt : Stmt :=
  .ifStmt (tk Tk.IF "if") (.booleanLiteral (tk Tk.TRUE "true") true)
    (.mk (tk Tk.LBRACE "\x7b") c5Block) none

/- ReturnValue confinement. The invariant: an object is good when no
ReturnValue wrapper occurs at its top or inside its lists and hashes. -/

mutual

/-- No ReturnValue at the top of the value nor inside its collections. -/
def goodObj : Object → Bool
  | .returnValue _ => false
  | .list es => goodObjList es
  | .hash ps => goodObjPairs ps
  | _ => true

/-- Every element good. -/
def goodObjList : List Object → Bool
  | [] => true
  | e :: rest => goodObj e && goodObjList rest

/-- Every pair value good. -/
def goodObjPairs : List (String × Object) → Bool
  | [] => true
  | p :: rest => goodObj p.2 && goodObjPairs rest

end

/-- Every binding of every frame of the heap is a good object. -/
def goodState (s : EvalState) : Bool :=
  s.envs.all (fun fr => goodObjPairs fr.store)

/-- Statement results: either a good object or a ReturnValue wrapping a
good object. -/
def retOk : Object → Bool
  | .returnValue u => goodObj u
  | v => goodObj v

/-- The function value of fn f() with body return 10; closing over frame 0. -/
def fFunction : Object :=
  .function []
    (.mk (tk Tk.LBRACE "\x7b")
      [.returnStmt (tk Tk.RETURN "return") (some (eInt 10))]) 0

/-- A state with fn f() with body return 10; bound in its only frame, used
to instantiate the confinement theorem. -/
def stateWithF : EvalState := ⟨[⟨[("f", fFunction)], none⟩], [], 0⟩

/-- The state after evaluating f() in stateWithF: the call frame created by
extendFunctionEnv remains on the heap. -/
def stateWithFAfter : EvalState :=
  ⟨[⟨[("f", fFunction)], none⟩, ⟨[], some 0⟩], [], 0⟩

/-- The call expression f(). -/
def callFExpr : Expr := .callExpr (tk Tk.LPAREN "(") (eId "f") []

/- Parser (part of src/unnamed, a recursive descent parser over the token
stream). The parser pulls tokens from the lexer on demand; here the not yet
consumed tokens are a list, and once it is exhausted the lexer keeps
returning EOF tokens, as lexer.go does at the end of input. Every parse
function takes a fuel parameter: the Go loops advance through the finite
token stream, the fuel plays that role in the embedding and a run that
exhausts it gives up with a nil result and the state unchanged. -/

/-- MaxErrors (parser): the cap on collected errors. -/
def MaxErrors : Nat := 20

/-- A parser Error: message plus position. -/
structure PError where
  message : String
  line    : Int
  column  : Int
  deriving Repr, DecidableEq

/-- The zero Token value of Go, the initial cur/peek before the two
initializing nextToken calls of New. -/
def zeroToken : Token := ⟨"", "", 0, 0⟩

/-- The EOF token the exhausted lexer keeps returning (position of the end
of input; the claims do not depend on its position). -/
def eofToken : Token := ⟨Tk.EOF, "", 0, 0⟩

/-- Parser state: the pending token stream, the two-token lookahead window,
and the collected errors. -/
structure PState where
  toks      : List Token
  curToken  : Token
  peekToken : Token
  errors    : List PError
  deriving Repr

/-- One pull from the lexer. -/
def lexNext : List Token → Token × List Token
  | [] => (eofToken, [])
  | t :: rest => (t, rest)

/-- Parser.nextToken. -/
def PState.nextToken (p : PState) : PState :=
  let r := lexNext p.toks
  { p with curToken := p.peekToken, peekToken := r.1, toks := r.2 }

/-- Parser.New: read two tokens to initialize curToken and peekToken. -/
def parserNew (toks : List Token) : PState :=
  (PState.nextToken (PState.nextToken ⟨toks, zeroToken, zeroToken, []⟩))

/-- Parser.curTokenIs. -/
def PState.curTokenIs (p : PState) (t : TokenType) : Bool :=
  p.curToken.type = t

/-- Parser.peekTokenIs. -/
def PState.peekTokenIs (p : PState) (t : TokenType) : Bool :=
  p.peekToken.type = t

/-- Parser.addError: a no-op once MaxErrors errors have been collected.
The fmt.Sprintf formatting is done by the callers here, which pass the
formatted message. -/
def PState.addError (p : PState) (line column : Int) (msg : String) : PState :=
  if p.errors.length ≥ MaxErrors then p
  else { p with errors := p.errors ++ [⟨msg, line, column⟩] }

/-- Parser.curError. -/
def PState.curError (p : PState) (msg : String) : PState :=
  p.addError p.curToken.line p.curToken.column msg

/-- Parser.peekError. -/
def PState.peekError (p : PState) (expected : TokenType) : PState :=
  p.addError p.peekToken.line p.peekToken.column
    ("expected " ++ expected ++ ", got " ++ p.peekToken.type)

/-- Parser.expectPeek: advance on a match, record an error otherwise. -/
def PState.expectPeek (p : PState) (t : TokenType) : Bool × PState :=
  if p.peekTokenIs t then (true, p.nextToken)
  else (false, p.peekError t)

/-- Parser.synchronize: advance past a semicolon or up to a token that
starts a new statement, or to EOF. -/
def synchronizeAux : Nat → PState → PState
  | 0, p => p
  | fuel + 1, p =>
    if p.curTokenIs Tk.EOF then p
    else if p.curToken.type = Tk.SEMICOLON then p.nextToken
    else if p.peekToken.type = Tk.FUNCTION ∨ p.peekToken.type = Tk.IF ∨
        p.peekToken.type = Tk.FOR ∨ p.peekToken.type = Tk.RETURN ∨
        p.peekToken.type = Tk.PROFILE ∨ p.peekToken.type = Tk.REGION then
      p.nextToken
    else synchronizeAux fuel p.nextToken

/-- The %q verb of fmt: the string in double quotes (escape processing is
not reproduced; no claim reads these messages). -/
def goQuote (s : String) : String := "\"" ++ s ++ "\""

/-- parseIntegerLiteral: Sscanf with the %d verb on the token literal,
modelled by the decimal reading of toNat? (the lexer only produces digit
strings for INT tokens). -/
def parseIntegerLiteral (p : PState) : Option Expr × PState :=
  match p.curToken.literal.toNat? with
  | some n => (some (.integerLiteral p.curToken (Int.ofNat n)), p)
  | none =>
    (none, p.curError ("could not parse " ++ goQuote p.curToken.literal ++ " as integer"))

/-- The decimal float reading, modelling Sscanf with the %f verb on the
digits-dot-digits literals the lexer produces. -/
def decimalToRat (lit : String) : Option Rat :=
  match lit.splitOn "." with
  | [w] => (w.toNat?).map (fun n => (n : Rat))
  | [w, f] =>
    match w.toNat?, f.toNat? with
    | some n, some m => some ((n : Rat) + (m : Rat) / ((10 : Rat) ^ f.length))
    | _, _ => none
  | _ => none

/-- parseFloatLiteral. -/
def parseFloatLiteral (p : PState) : Option Expr × PState :=
  match decimalToRat p.curToken.literal with
  | some v => (some (.floatLiteral p.curToken v), p)
  | none =>
    (none, p.curError ("could not parse " ++ goQuote p.curToken.literal ++ " as float"))

/-- parseMemberExpression; curToken is the dot. -/
def parseMemberExpression (object : Expr) (p : PState) : Option Expr × PState :=
  match p.expectPeek Tk.IDENT with
  | (false, p1) => (none, p1)
  | (true, p1) => (some (.memberExpr p.curToken object p1.curToken.literal), p1)

/-- parsePipeExpression; curToken is the pipe. The identifier after the
pipe must literally be format, then csv or table. -/
def parsePipeExpression (left : Expr) (p : PState) : Option Expr × PState :=
  match p.expectPeek Tk.IDENT with
  | (false, p1) => (none, p1)
  | (true, p1) =>
    if p1.curToken.literal ≠ "format" then
      (none, p1.curError ("expected 'format' after pipe, got " ++ goQuote p1.curToken.literal))
    else
      match p1.expectPeek Tk.IDENT with
      | (false, p2) => (none, p2)
      | (true, p2) =>
        if p2.curToken.literal ≠ "csv" ∧ p2.curToken.literal ≠ "table" then
          (none, p2.curError ("expected 'csv' or 'table', got " ++ goQuote p2.curToken.literal))
        else (some (.pipeExpr p.curToken left p2.curToken.literal), p2)

mutual

/-- parseStatement: dispatch by the current token kind. -/
def parseStatement : Nat → PState → Option Stmt × PState
  | 0, p => (none, p)
  | fuel + 1, p =>
    if p.curToken.type = Tk.PROFILE ∨ p.curToken.type = Tk.REGION then
      parseContextStatement fuel p
    else if p.curToken.type = Tk.IF then parseIfStatement fuel p
    else if p.curToken.type = Tk.FOR then parseForStatement fuel p
    else if p.curToken.type = Tk.RETURN then parseReturnStatement fuel p
    else if p.curToken.type = Tk.FUNCTION then parseFunctionDeclaration fuel p
    else if p.curToken.type = Tk.IDENT then
      if p.peekTokenIs Tk.ASSIGN then parseAssignmentStatement fuel p
      else parseExpressionStatement fuel p
    else parseExpressionStatement fuel p
termination_by structural fuel p => fuel

/-- parseContextStatement: profile or region, then a string, then a
semicolon. -/
def parseContextStatement : Nat → PState → Option Stmt × PState
  | 0, p => (none, p)
  | fuel + 1, p =>
    match p.expectPeek Tk.STRING with
    | (false, p1) => (none, synchronizeAux fuel p1)
    | (true, p1) =>
      match p1.expectPeek Tk.SEMICOLON with
      | (false, p2) => (none, synchronizeAux fuel p2)
      | (true, p2) =>
        (some (.contextStmt p.curToken p1.curToken.literal), p2.nextToken)

/-- parseAssignmentStatement: identifier, =, expression, semicolon. -/
def parseAssignmentStatement : Nat → PState → Option Stmt × PState
  | 0, p => (none, p)
  | fuel + 1, p =>
    match p.expectPeek Tk.ASSIGN with
    | (false, p1) => (none, synchronizeAux fuel p1)
    | (true, p1) =>
      match parseExpression fuel p1.nextToken with
      | (none, p2) => (none, synchronizeAux fuel p2)
      | (some value, p2) =>
        match p2.expectPeek Tk.SEMICOLON with
        | (false, p3) => (none, synchronizeAux fuel p3)
        | (true, p3) =>
          (some (.assignStmt p.curToken p.curToken.literal value), p3.nextToken)

/-- parseIfStatement. -/
def parseIfStatement : Nat → PState → Option Stmt × PState
  | 0, p => (none, p)
  | fuel + 1, p =>
    match p.expectPeek Tk.LPAREN with
    | (false, p1) => (none, synchronizeAux fuel p1)
    | (true, p1) =>
      match parseExpression fuel p1.nextToken with
      | (none, p2) => (none, synchronizeAux fuel p2)
      | (some cond, p2) =>
        match p2.expectPeek Tk.RPAREN with
        | (false, p3) => (none, synchronizeAux fuel p3)
        | (true, p3) =>
          match p3.expectPeek Tk.LBRACE with
          | (false, p4) => (none, synchronizeAux fuel p4)
          | (true, p4) =>
            match parseBlockStatement fuel p4 with
            | (none, p5) => (none, p5)
            | (some conseq, p5) =>
              if p5.curTokenIs Tk.ELSE then
                match p5.expectPeek Tk.LBRACE with
                | (false, p6) => (none, synchronizeAux fuel p6)
                | (true, p6) =>
                  match parseBlockStatement fuel p6 with
                  | (none, p7) => (none, p7)
                  | (some alt, p7) =>
                    (some (.ifStmt p.curToken cond conseq (some alt)), p7)
              else (some (.ifStmt p.curToken cond conseq none), p5)
termination_by structural fuel p => fuel

/-- parseForStatement. -/
def parseForStatement : Nat → PState → Option Stmt × PState
  | 0, p => (none, p)
  | fuel + 1, p =>
    match p.expectPeek Tk.LPAREN with
    | (false, p1) => (none, synchronizeAux fuel p1)
    | (true, p1) =>
      match p1.expectPeek Tk.IDENT with
      | (false, p2) => (none, synchronizeAux fuel p2)
      | (true, p2) =>
        match p2.expectPeek Tk.IN with
        | (false, p3) => (none, synchronizeAux fuel p3)
        | (true, p3) =>
          match parseExpression fuel p3.nextToken with
          | (none, p4) => (none, synchronizeAux fuel p4)
          | (some iterable, p4) =>
            match p4.expectPeek Tk.RPAREN with
            | (false, p5) => (none, synchronizeAux fuel p5)
            | (true, p5) =>
              match p5.expectPeek Tk.LBRACE with
              | (false, p6) => (none, synchronizeAux fuel p6)
              | (true, p6) =>
                match parseBlockStatement fuel p6 with
                | (none, p7) => (none, p7)
                | (some body, p7) =>
                  (some (.forStmt p.curToken p2.curToken.literal iterable body), p7)
termination_by structural fuel p => fuel

/-- parseReturnStatement: bare return or return with an expression. -/
def parseReturnStatement : Nat → PState → Option Stmt × PState
  | 0, p => (none, p)
  | fuel + 1, p =>
    if p.nextToken.curTokenIs Tk.SEMICOLON then
      (some (.returnStmt p.curToken none), p.nextToken.nextToken)
    else
      match parseExpression fuel p.nextToken with
      | (none, p1) => (none, synchronizeAux fuel p1)
      | (some value, p1) =>
        match p1.expectPeek Tk.SEMICOLON with
        | (false, p2) => (none, synchronizeAux fuel p2)
        | (true, p2) => (some (.returnStmt p.curToken (some value)), p2.nextToken)

/-- parseFunctionDeclaration. -/
def parseFunctionDeclaration : Nat → PState → Option Stmt × PState
  | 0, p => (none, p)
  | fuel + 1, p =>
    match p.expectPeek Tk.IDENT with
    | (false, p1) => (none, synchronizeAux fuel p1)
    | (true, p1) =>
      match p1.expectPeek Tk.LPAREN with
      | (false, p2) => (none, synchronizeAux fuel p2)
      | (true, p2) =>
        match parseParameterList fuel p2 with
        | (params, p3) =>
          match p3.expectPeek Tk.RPAREN with
          | (false, p4) => (none, synchronizeAux fuel p4)
          | (true, p4) =>
            match p4.expectPeek Tk.LBRACE with
            | (false, p5) => (none, synchronizeAux fuel p5)
            | (true, p5) =>
              match parseBlockStatement fuel p5 with
              | (none, p6) => (none, p6)
              | (some body, p6) =>
                (some (.funcDecl p.curToken p1.curToken.literal params body), p6)
termination_by structural fuel p => fuel

/-- parseParameterList: possibly empty identifier list before RPAREN. -/
def parseParameterList : Nat → PState → List String × PState
  | 0, p => ([], p)
  | fuel + 1, p =>
    if p.peekTokenIs Tk.RPAREN then ([], p)
    else
      match p.expectPeek Tk.IDENT with
      | (false, p1) => ([], p1)
      | (true, p1) => parseParameterListLoop fuel [p1.curToken.literal] p1

/-- The comma loop of parseParameterList. -/
def parseParameterListLoop : Nat → List String → PState → List String × PState
  | 0, params, p => (params, p)
  | fuel + 1, params, p =>
    if p.peekTokenIs Tk.COMMA then
      match p.nextToken.expectPeek Tk.IDENT with
      | (false, p1) => (params, p1)
      | (true, p1) =>
        parseParameterListLoop fuel (params ++ [p1.curToken.literal]) p1
    else (params, p)
termination_by structural fuel params p => fuel

/-- parseBlockStatement; curToken is the opening brace. The statement loop
stops at RBRACE, at EOF, and once MaxErrors is reached. -/
def parseBlockStatement : Nat → PState → Option Block × PState
  | 0, p => (none, p)
  | fuel + 1, p =>
    match parseBlockLoop fuel [] p.nextToken with
    | (stmts, p1) =>
      if !(p1.curTokenIs Tk.RBRACE) then
        (none, p1.curError ("expected \x7d, got " ++ p1.curToken.type))
      else (some (.mk p.curToken stmts), p1.nextToken)
termination_by structural fuel p => fuel

/-- The statement loop of parseBlockStatement. -/
def parseBlockLoop : Nat → List Stmt → PState → List Stmt × PState
  | 0, acc, p => (acc, p)
  | fuel + 1, acc, p =>
    if !(p.curTokenIs Tk.RBRACE) ∧ !(p.curTokenIs Tk.EOF) then
      if p.errors.length ≥ MaxErrors then (acc, p)
      else
        match parseStatement fuel p with
        | (some st, p1) => parseBlockLoop fuel (acc ++ [st]) p1
        | (none, p1) => parseBlockLoop fuel acc p1
    else (acc, p)
termination_by structural fuel acc p => fuel

/-- parseExpressionStatement: an expression followed by a mandatory
semicolon. -/
def parseExpressionStatement : Nat → PState → Option Stmt × PState
  | 0, p => (none, p)
  | fuel + 1, p =>
    match parseExpression fuel p with
    | (none, p1) => (none, synchronizeAux fuel p1)
    | (some expr, p1) =>
      match p1.expectPeek Tk.SEMICOLON with
      | (false, p2) => (none, synchronizeAux fuel p2)
      | (true, p2) => (some (.exprStmt p.curToken expr), p2.nextToken)

/-- parseExpression: entry point, lowest precedence. -/
def parseExpression : Nat → PState → Option Expr × PState
  | 0, p => (none, p)
  | fuel + 1, p => parseOr fuel p
termination_by structural fuel p => fuel

/-- parseOr. -/
def parseOr : Nat → PState → Option Expr × PState
  | 0, p => (none, p)
  | fuel + 1, p =>
    match parseAnd fuel p with
    | (none, p1) => (none, p1)
    | (some left, p1) => parseOrLoop fuel left p1
termination_by structural fuel p => fuel

/-- The operator loop of parseOr. -/
def parseOrLoop : Nat → Expr → PState → Option Expr × PState
  | 0, _, p => (none, p)
  | fuel + 1, left, p =>
    if p.peekTokenIs Tk.OR then
      match parseAnd fuel p.nextToken.nextToken with
      | (none, p2) => (none, p2)
      | (some right, p2) =>
        parseOrLoop fuel
          (.infixExpr p.nextToken.curToken left p.nextToken.curToken.literal right) p2
    else (some left, p)
termination_by structural fuel left p => fuel

/-- parseAnd. -/
def parseAnd : Nat → PState → Option Expr × PState
  | 0, p => (none, p)
  | fuel + 1, p =>
    match parseEquality fuel p with
    | (none, p1) => (none, p1)
    | (some left, p1) => parseAndLoop fuel left p1
termination_by structural fuel p => fuel

/-- The operator loop of parseAnd. -/
def parseAndLoop : Nat → Expr → PState → Option Expr × PState
  | 0, _, p => (none, p)
  | fuel + 1, left, p =>
    if p.peekTokenIs Tk.AND then
      match parseEquality fuel p.nextToken.nextToken with
      | (none, p2) => (none, p2)
      | (some right, p2) =>
        parseAndLoop fuel
          (.infixExpr p.nextToken.curToken left p.nextToken.curToken.literal right) p2
    else (some left, p)
termination_by structural fuel left p => fuel

/-- parseEquality. -/
def parseEquality : Nat → PState → Option Expr × PState
  | 0, p => (none, p)
  | fuel + 1, p =>
    match parseComparison fuel p with
    | (none, p1) => (none, p1)
    | (some left, p1) => parseEqualityLoop fuel left p1
termination_by structural fuel p => fuel

/-- The operator loop of parseEquality. -/
def parseEqualityLoop : Nat → Expr → PState → Option Expr × PState
  | 0, _, p => (none, p)
  | fuel + 1, left, p =>
    if p.peekTokenIs Tk.EQ || p.peekTokenIs Tk.NOT_EQ then
      match parseComparison fuel p.nextToken.nextToken with
      | (none, p2) => (none, p2)
      | (some right, p2) =>
        parseEqualityLoop fuel
          (.infixExpr p.nextToken.curToken left p.nextToken.curToken.literal right) p2
    else (some left, p)
termination_by structural fuel left p => fuel

/-- parseComparison. -/
def parseComparison : Nat → PState → Option Expr × PState
  | 0, p => (none, p)
  | fuel + 1, p =>
    match parseTerm fuel p with
    | (none, p1) => (none, p1)
    | (some left, p1) => parseComparisonLoop fuel left p1
termination_by structural fuel p => fuel

/-- The operator loop of parseComparison. -/
def parseComparisonLoop : Nat → Expr → PState → Option Expr × PState
  | 0, _, p => (none, p)
  | fuel + 1, left, p =>
    if p.peekTokenIs Tk.LT || p.peekTokenIs Tk.GT ||
        p.peekTokenIs Tk.LTE || p.peekTokenIs Tk.GTE then
      match parseTerm fuel p.nextToken.nextToken with
      | (none, p2) => (none, p2)
      | (some right, p2) =>
        parseComparisonLoop fuel
          (.infixExpr p.nextToken.curToken left p.nextToken.curToken.literal right) p2
    else (some left, p)
termination_by structural fuel left p => fuel

/-- parseTerm. -/
def parseTerm : Nat → PState → Option Expr × PState
  | 0, p => (none, p)
  | fuel + 1, p =>
    match parseFactor fuel p with
    | (none, p1) => (none, p1)
    | (some left, p1) => parseTermLoop fuel left p1
termination_by structural fuel p => fuel

/-- The operator loop of parseTerm. -/
def parseTermLoop : Nat → Expr → PState → Option Expr × PState
  | 0, _, p => (none, p)
  | fuel + 1, left, p =>
    if p.peekTokenIs Tk.PLUS || p.peekTokenIs Tk.MINUS then
      match parseFactor fuel p.nextToken.nextToken with
      | (none, p2) => (none, p2)
      | (some right, p2) =>
        parseTermLoop fuel
          (.infixExpr p.nextToken.curToken left p.nextToken.curToken.literal right) p2
    else (some left, p)
termination_by structural fuel left p => fuel

/-- parseFactor. -/
def parseFactor : Nat → PState → Option Expr × PState
  | 0, p => (none, p)
  | fuel + 1, p =>
    match parseUnary fuel p with
    | (none, p1) => (none, p1)
    | (some left, p1) => parseFactorLoop fuel left p1
termination_by structural fuel p => fuel

/-- The operator loop of parseFactor. -/
def parseFactorLoop : Nat → Expr → PState → Option Expr × PState
  | 0, _, p => (none, p)
  | fuel + 1, left, p =>
    if p.peekTokenIs Tk.ASTERISK || p.peekTokenIs Tk.SLASH then
      match parseUnary fuel p.nextToken.nextToken with
      | (none, p2) => (none, p2)
      | (some right, p2) =>
        parseFactorLoop fuel
          (.infixExpr p.nextToken.curToken left p.nextToken.curToken.literal right) p2
    else (some left, p)
termination_by structural fuel left p => fuel

/-- parseUnary: right-associative prefix bang and minus. -/
def parseUnary : Nat → PState → Option Expr × PState
  | 0, p => (none, p)
  | fuel + 1, p =>
    if p.curTokenIs Tk.BANG || p.curTokenIs Tk.MINUS then
      match parseUnary fuel p.nextToken with
      | (none, p1) => (none, p1)
      | (some right, p1) =>
        (some (.prefixExpr p.curToken p.curToken.literal right), p1)
    else parsePostfixExpr fuel p
termination_by structural fuel p => fuel

/-- parsePostfix of the source: a primary followed by calls, indexes,
member accesses and pipes. -/
def parsePostfixExpr : Nat → PState → Option Expr × PState
  | 0, p => (none, p)
  | fuel + 1, p =>
    match parsePrimary fuel p with
    | (none, p1) => (none, p1)
    | (some left, p1) => parsePostfixLoop fuel left p1
termination_by structural fuel p => fuel

/-- The postfix loop. -/
def parsePostfixLoop : Nat → Expr → PState → Option Expr × PState
  | 0, _, p => (none, p)
  | fuel + 1, left, p =>
    if p.peekTokenIs Tk.LPAREN then
      match parseCallExpression fuel left p.nextToken with
      | (none, p1) => (none, p1)
      | (some l2, p1) => parsePostfixLoop fuel l2 p1
    else if p.peekTokenIs Tk.LBRACKET then
      match parseIndexExpression fuel left p.nextToken with
      | (none, p1) => (none, p1)
      | (some l2, p1) => parsePostfixLoop fuel l2 p1
    else if p.peekTokenIs Tk.DOT then
      match parseMemberExpression left p.nextToken with
      | (none, p1) => (none, p1)
      | (some l2, p1) => parsePostfixLoop fuel l2 p1
    else if p.peekTokenIs Tk.PIPE then
      match parsePipeExpression left p.nextToken with
      | (none, p1) => (none, p1)
      | (some l2, p1) => parsePostfixLoop fuel l2 p1
    else (some left, p)
termination_by structural fuel left p => fuel

/-- parseCallExpression; curToken is the opening paren. -/
def parseCallExpression : Nat → Expr → PState → Option Expr × PState
  | 0, _, p => (none, p)
  | fuel + 1, function, p =>
    match parseArgumentList fuel p with
    | (args, p1) =>
      match p1.expectPeek Tk.RPAREN with
      | (false, p2) => (none, p2)
      | (true, p2) => (some (.callExpr p.curToken function args), p2)
termination_by structural fuel function p => fuel

/-- parseArgumentList. -/
def parseArgumentList : Nat → PState → List Argument × PState
  | 0, p => ([], p)
  | fuel + 1, p =>
    if p.peekTokenIs Tk.RPAREN then ([], p)
    else
      match parseArgument fuel p.nextToken with
      | (none, p1) => ([], p1)
      | (some arg, p1) => parseArgumentListLoop fuel [arg] p1
termination_by structural fuel p => fuel

/-- The comma loop of parseArgumentList. -/
def parseArgumentListLoop : Nat → List Argument → PState → List Argument × PState
  | 0, args, p => (args, p)
  | fuel + 1, args, p =>
    if p.peekTokenIs Tk.COMMA then
      match parseArgument fuel p.nextToken.nextToken with
      | (none, p1) => (args, p1)
      | (some arg, p1) => parseArgumentListLoop fuel (args ++ [arg]) p1
    else (args, p)
termination_by structural fuel args p => fuel

/-- parseArgument: named when the current token is an identifier and the
peek a colon, positional otherwise. -/
def parseArgument : Nat → PState → Option Argument × PState
  | 0, p => (none, p)
  | fuel + 1, p =>
    if p.curTokenIs Tk.IDENT && p.peekTokenIs Tk.COLON then
      match parseExpression fuel p.nextToken.nextToken with
      | (none, p1) => (none, p1)
      | (some value, p1) =>
        (some (.mk (some p.curToken.literal) value), p1)
    else
      match parseExpression fuel p with
      | (none, p1) => (none, p1)
      | (some value, p1) => (some (.mk none value), p1)
termination_by structural fuel p => fuel

/-- parseIndexExpression; curToken is the opening bracket. -/
def parseIndexExpression : Nat → Expr → PState → Option Expr × PState
  | 0, _, p => (none, p)
  | fuel + 1, left, p =>
    match parseExpression fuel p.nextToken with
    | (none, p1) => (none, p1)
    | (some index, p1) =>
      match p1.expectPeek Tk.RBRACKET with
      | (false, p2) => (none, p2)
      | (true, p2) => (some (.indexExpr p.curToken left index), p2)
termination_by structural fuel left p => fuel

/-- parsePrimary: literals, identifier, grouped, list and object literals. -/
def parsePrimary : Nat → PState → Option Expr × PState
  | 0, p => (none, p)
  | fuel + 1, p =>
    if p.curToken.type = Tk.IDENT then
      (some (.identifier p.curToken p.curToken.literal), p)
    else if p.curToken.type = Tk.INT then parseIntegerLiteral p
    else if p.curToken.type = Tk.FLOAT then parseFloatLiteral p
    else if p.curToken.type = Tk.STRING then
      (some (.stringLiteral p.curToken p.curToken.literal), p)
    else if p.curToken.type = Tk.TRUE then
      (some (.booleanLiteral p.curToken true), p)
    else if p.curToken.type = Tk.FALSE then
      (some (.booleanLiteral p.curToken false), p)
    else if p.curToken.type = Tk.NULL then (some (.nullLiteral p.curToken), p)
    else if p.curToken.type = Tk.LPAREN then parseGroupedExpression fuel p
    else if p.curToken.type = Tk.LBRACKET then parseListLiteral fuel p
    else if p.curToken.type = Tk.LBRACE then parseObjectLiteral fuel p
    else (none, p.curError ("unexpected token " ++ p.curToken.type))
termination_by structural fuel p => fuel

/-- parseGroupedExpression; curToken is the opening paren. -/
def parseGroupedExpression : Nat → PState → Option Expr × PState
  | 0, p => (none, p)
  | fuel + 1, p =>
    match parseExpression fuel p.nextToken with
    | (none, p1) => (none, p1)
    | (some inner, p1) =>
      match p1.expectPeek Tk.RPAREN with
      | (false, p2) => (none, p2)
      | (true, p2) => (some (.groupedExpr p.curToken inner), p2)
termination_by structural fuel p => fuel

/-- parseListLiteral; curToken is the opening bracket. -/
def parseListLiteral : Nat → PState → Option Expr × PState
  | 0, p => (none, p)
  | fuel + 1, p =>
    if p.peekTokenIs Tk.RBRACKET then
      (some (.listLiteral p.curToken []), p.nextToken)
    else
      match parseExpression fuel p.nextToken with
      | (none, p1) => (none, p1)
      | (some elem, p1) => parseListLiteralLoop fuel p.curToken [elem] p1
termination_by structural fuel p => fuel

/-- The comma loop of parseListLiteral, then the closing bracket. -/
def parseListLiteralLoop : Nat → Token → List Expr → PState → Option Expr × PState
  | 0, _, _, p => (none, p)
  | fuel + 1, tok, elems, p =>
    if p.peekTokenIs Tk.COMMA then
      match parseExpression fuel p.nextToken.nextToken with
      | (none, p1) => (none, p1)
      | (some elem, p1) => parseListLiteralLoop fuel tok (elems ++ [elem]) p1
    else
      match p.expectPeek Tk.RBRACKET with
      | (false, p1) => (none, p1)
      | (true, p1) => (some (.listLiteral tok elems), p1)
termination_by structural fuel tok elems p => fuel

/-- parseObjectLiteral; curToken is the opening brace. -/
def parseObjectLiteral : Nat → PState → Option Expr × PState
  | 0, p => (none, p)
  | fuel + 1, p =>
    if p.peekTokenIs Tk.RBRACE then
      (some (.objectLiteral p.curToken []), p.nextToken)
    else
      match parseObjectPair fuel p with
      | (none, p1) => (none, p1)
      | (some pair, p1) => parseObjectLiteralLoop fuel p.curToken [pair] p1
termination_by structural fuel p => fuel

/-- The comma loop of parseObjectLiteral, then the closing brace. -/
def parseObjectLiteralLoop :
    Nat → Token → List ObjectPair → PState → Option Expr × PState
  | 0, _, _, p => (none, p)
  | fuel + 1, tok, pairs, p =>
    if p.peekTokenIs Tk.COMMA then
      match parseObjectPair fuel p.nextToken with
      | (none, p1) => (none, p1)
      | (some pair, p1) => parseObjectLiteralLoop fuel tok (pairs ++ [pair]) p1
    else
      match p.expectPeek Tk.RBRACE with
      | (false, p1) => (none, p1)
      | (true, p1) => (some (.objectLiteral tok pairs), p1)
termination_by structural fuel tok pairs p => fuel

/-- parseObjectPair: identifier key, colon, expression value. -/
def parseObjectPair : Nat → PState → Option ObjectPair × PState
  | 0, p => (none, p)
  | fuel + 1, p =>
    match p.expectPeek Tk.IDENT with
    | (false, p1) => (none, p1)
    | (true, p1) =>
      match p1.expectPeek Tk.COLON with
      | (false, p2) => (none, p2)
      | (true, p2) =>
        match parseExpression fuel p2.nextToken with
        | (none, p3) => (none, p3)
        | (some value, p3) => (some (.mk p1.curToken.literal value), p3)
termination_by structural fuel p => fuel

/-- The statement loop of ParseProgram: stops at EOF, stops once MaxErrors
is reached, drops nil statements. -/
def parseProgramLoop : Nat → List Stmt → PState → List Stmt × PState
  | 0, acc, p => (acc, p)
  | fuel + 1, acc, p =>
    if p.curTokenIs Tk.EOF then (acc, p)
    else if p.errors.length ≥ MaxErrors then (acc, p)
    else
      match parseStatement fuel p with
      | (some st, p1) => parseProgramLoop fuel (acc ++ [st]) p1
      | (none, p1) => parseProgramLoop fuel acc p1
termination_by structural fuel acc p => fuel

end

/-- ParseProgram: always returns a (possibly empty or partial) Program
together with the final parser state holding the collected errors. -/
def ParseProgram (fuel : Nat) (toks : List Token) : Program × PState :=
  let p := parserNew toks
  let r := parseProgramLoop fuel [] p
  (⟨r.1⟩, r.2)

/-- The parser invariant of interest: the error list never exceeds
MaxErrors. -/
def PInv (p : PState) : Prop := p.errors.length ≤ MaxErrors

/-- A parser state whose error list is already at the MaxErrors cap. -/
def p20 : PState :=
  ⟨[], eofToken, eofToken, List.replicate 20 ⟨"error", 1, 1⟩⟩

/-- A parser state at the cap whose current token is an identifier, so the
statement loops would otherwise keep going. -/
def p20Ident : PState :=
  ⟨[], tk Tk.IDENT "x", eofToken, List.replicate 20 ⟨"error", 1, 1⟩⟩

/- Theorems. -/

theorem PInv_nextToken {p : PState} (h : PInv p) : PInv p.nextToken := h

theorem PInv_nextToken_iff (p : PState) : PInv p.nextToken ↔ PInv p := Iff.rfl

theorem PInv_addError {p : PState} (l c : Int) (m : String) (h : PInv p) :
    PInv (p.addError l c m) := by
  unfold PState.addError
  split_ifs with hc
  · exact h
  · unfold PInv at *
    simp only [List.length_append, List.length_cons, List.length_nil]
    omega

theorem PInv_curError {p : PState} (m : String) (h : PInv p) :
    PInv (p.curError m) :=
  PInv_addError _ _ _ h

theorem PInv_peekError {p : PState} (t : TokenType) (h : PInv p) :
    PInv (p.peekError t) :=
  PInv_addError _ _ _ h

theorem PInv_expectPeek {p : PState} (t : TokenType) (h : PInv p) :
    PInv (p.expectPeek t).2 := by
  unfold PState.expectPeek
  split
  · exact PInv_nextToken h
  · exact PInv_peekError t h

theorem PInv_sync {f : Nat} {p : PState} (h : PInv p) :
    PInv (synchronizeAux f p) := by
  induction f generalizing p with
  | zero => exact h
  | succ f ih =>
    unfold synchronizeAux
    split_ifs
    · exact h
    · exact PInv_nextToken h
    · exact PInv_nextToken h
    · exact ih (PInv_nextToken h)

theorem PInv_parseIntegerLiteral {p : PState} (h : PInv p) :
    PInv (parseIntegerLiteral p).2 := by
  unfold parseIntegerLiteral
  split
  · exact h
  · exact PInv_curError _ h

theorem PInv_parseFloatLiteral {p : PState} (h : PInv p) :
    PInv (parseFloatLiteral p).2 := by
  unfold parseFloatLiteral
  split
  · exact h
  · exact PInv_curError _ h

theorem PInv_eqPair {α : Type} {t : α × PState} {r : α} {q : PState}
    (hE : t = (r, q)) (h : PInv t.2) : PInv q := by
  rw [hE] at h
  exact h

theorem PInv_expectPeek_eq {p : PState} {t : TokenType} {b : Bool} {q : PState}
    (hE : p.expectPeek t = (b, q)) (h : PInv p) : PInv q :=
  PInv_eqPair hE (PInv_expectPeek t h)

theorem PInv_parseMemberExpression {o : Expr} {p : PState} (h : PInv p) :
    PInv (parseMemberExpression o p).2 := by
  simp only [parseMemberExpression]
  repeat' split
  all_goals
    repeat
      first
        | exact h
        | apply PInv_curError
        | apply PInv_expectPeek_eq (by assumption)
        | apply PInv_eqPair (by assumption)

theorem PInv_parsePipeExpression {l : Expr} {p : PState} (h : PInv p) :
    PInv (parsePipeExpression l p).2 := by
  simp only [parsePipeExpression]
  repeat' split
  all_goals
    repeat
      first
        | exact h
        | apply PInv_curError
        | apply PInv_expectPeek_eq (by assumption)
        | apply PInv_eqPair (by assumption)

set_option maxHeartbeats 16000000 in
set_option maxRecDepth 4000 in
theorem parserInvBundle (fuel : Nat) :
    (∀ p, PInv p → PInv (parseContextStatement fuel p).2) ∧
    (∀ p, PInv p → PInv (parseAssignmentStatement fuel p).2) ∧
    (∀ p, PInv p → PInv (parseReturnStatement fuel p).2) ∧
    (∀ p, PInv p → PInv (parseParameterList fuel p).2) ∧
    (∀ p, PInv p → PInv (parseExpressionStatement fuel p).2) ∧
    (∀ p, PInv p → PInv (parseStatement fuel p).2) ∧
    (∀ p, PInv p → PInv (parseIfStatement fuel p).2) ∧
    (∀ p, PInv p → PInv (parseForStatement fuel p).2) ∧
    (∀ p, PInv p → PInv (parseFunctionDeclaration fuel p).2) ∧
    (∀ a p, PInv p → PInv (parseParameterListLoop fuel a p).2) ∧
    (∀ p, PInv p → PInv (parseBlockStatement fuel p).2) ∧
    (∀ a p, PInv p → PInv (parseBlockLoop fuel a p).2) ∧
    (∀ p, PInv p → PInv (parseExpression fuel p).2) ∧
    (∀ p, PInv p → PInv (parseOr fuel p).2) ∧
    (∀ l p, PInv p → PInv (parseOrLoop fuel l p).2) ∧
    (∀ p, PInv p → PInv (parseAnd fuel p).2) ∧
    (∀ l p, PInv p → PInv (parseAndLoop fuel l p).2) ∧
    (∀ p, PInv p → PInv (parseEquality fuel p).2) ∧
    (∀ l p, PInv p → PInv (parseEqualityLoop fuel l p).2) ∧
    (∀ p, PInv p → PInv (parseComparison fuel p).2) ∧
    (∀ l p, PInv p → PInv (parseComparisonLoop fuel l p).2) ∧
    (∀ p, PInv p → PInv (parseTerm fuel p).2) ∧
    (∀ l p, PInv p → PInv (parseTermLoop fuel l p).2) ∧
    (∀ p, PInv p → PInv (parseFactor fuel p).2) ∧
    (∀ l p, PInv p → PInv (parseFactorLoop fuel l p).2) ∧
    (∀ p, PInv p → PInv (parseUnary fuel p).2) ∧
    (∀ p, PInv p → PInv (parsePostfixExpr fuel p).2) ∧
    (∀ l p, PInv p → PInv (parsePostfixLoop fuel l p).2) ∧
    (∀ f p, PInv p → PInv (parseCallExpression fuel f p).2) ∧
    (∀ p, PInv p → PInv (parseArgumentList fuel p).2) ∧
    (∀ a p, PInv p → PInv (parseArgumentListLoop fuel a p).2) ∧
    (∀ p, PInv p → PInv (parseArgument fuel p).2) ∧
    (∀ l p, PInv p → PInv (parseIndexExpression fuel l p).2) ∧
    (∀ p, PInv p → PInv (parsePrimary fuel p).2) ∧
    (∀ p, PInv p → PInv (parseGroupedExpression fuel p).2) ∧
    (∀ p, PInv p → PInv (parseListLiteral fuel p).2) ∧
    (∀ t e p, PInv p → PInv (parseListLiteralLoop fuel t e p).2) ∧
    (∀ p, PInv p → PInv (parseObjectLiteral fuel p).2) ∧
    (∀ t e p, PInv p → PInv (parseObjectLiteralLoop fuel t e p).2) ∧
    (∀ p, PInv p → PInv (parseObjectPair fuel p).2) ∧
    (∀ a p, PInv p → PInv (parseProgramLoop fuel a p).2) := by
  induction fuel with
  | zero =>
    refine ⟨?_, ?_, ?_, ?_, ?_, ?_, ?_, ?_, ?_, ?_, ?_, ?_, ?_, ?_, ?_, ?_,
      ?_, ?_, ?_, ?_, ?_, ?_, ?_, ?_, ?_, ?_, ?_, ?_, ?_, ?_, ?_, ?_, ?_, ?_,
      ?_, ?_, ?_, ?_, ?_, ?_, ?_⟩ <;>
      (intros; rename_i hp; exact hp)
  | succ fuel ih =>
    obtain ⟨ihCtx, ihAsg, ihRet, ihPLst, ihES, ihStmt, ihIf, ihFor, ihFn,
      ihPLL, ihBlk, ihBlkL, ihExpr, ihOr, ihOrL, ihAnd, ihAndL, ihEq, ihEqL,
      ihCmp, ihCmpL, ihTerm, ihTermL, ihFac, ihFacL, ihUn, ihPost, ihPostL,
      ihCall, ihArgL, ihArgLL, ihArg, ihIdx, ihPrim, ihGrp, ihLst, ihLstL,
      ihObj, ihObjL, ihPair, ihProg⟩ := ih
    refine ⟨?_, ?_, ?_, ?_, ?_, ?_, ?_, ?_, ?_, ?_, ?_, ?_, ?_, ?_, ?_, ?_,
      ?_, ?_, ?_, ?_, ?_, ?_, ?_, ?_, ?_, ?_, ?_, ?_, ?_, ?_, ?_, ?_, ?_, ?_,
      ?_, ?_, ?_, ?_, ?_, ?_, ?_⟩
    · intros p hp
      simp only [parseContextStatement]
      repeat' split
      all_goals
        repeat
          first
            | exact hp
            | apply PInv_sync
            | apply PInv_expectPeek
            | apply PInv_curError
            | apply PInv_peekError
            | rw [PInv_nextToken_iff]
            | apply PInv_expectPeek_eq (by assumption)
            | apply PInv_eqPair (by assumption)
            | dsimp only
    · intros p hp
      simp only [parseAssignmentStatement]
      repeat' split
      all_goals
        repeat
          first
            | exact hp
            | apply PInv_sync
            | apply PInv_expectPeek
            | apply PInv_curError
            | apply PInv_peekError
            | rw [PInv_nextToken_iff]
            | apply ihExpr
            | apply PInv_expectPeek_eq (by assumption)
            | apply PInv_eqPair (by assumption)
            | dsimp only
    · intros p hp
      simp only [parseReturnStatement]
      repeat' split
      all_goals
        repeat
          first
            | exact hp
            | apply PInv_sync
            | apply PInv_expectPeek
            | apply PInv_curError
            | apply PInv_peekError
            | rw [PInv_nextToken_iff]
            | apply ihExpr
            | apply PInv_expectPeek_eq (by assumption)
            | apply PInv_eqPair (by assumption)
            | dsimp only
    · intros p hp
      simp only [parseParameterList]
      repeat' split
      all_goals
        repeat
          first
            | exact hp
            | apply PInv_sync
            | apply PInv_expectPeek
            | apply PInv_curError
            | apply PInv_peekError
            | rw [PInv_nextToken_iff]
            | apply ihPLL
            | apply PInv_expectPeek_eq (by assumption)
            | apply PInv_eqPair (by assumption)
            | dsimp only
    · intros p hp
      simp only [parseExpressionStatement]
      repeat' split
      all_goals
        repeat
          first
            | exact hp
            | apply PInv_sync
            | apply PInv_expectPeek
            | apply PInv_curError
            | apply PInv_peekError
            | rw [PInv_nextToken_iff]
            | apply ihExpr
            | apply PInv_expectPeek_eq (by assumption)
            | apply PInv_eqPair (by assumption)
            | dsimp only
    all_goals
      (intros;
       rename_i hp;
       simp only [parseStatement, parseIfStatement, parseForStatement,
         parseFunctionDeclaration, parseParameterListLoop,
         parseBlockStatement, parseBlockLoop, parseExpression, parseOr,
         parseOrLoop, parseAnd, parseAndLoop, parseEquality,
         parseEqualityLoop, parseComparison, parseComparisonLoop, parseTerm,
         parseTermLoop, parseFactor, parseFactorLoop, parseUnary,
         parsePostfixExpr, parsePostfixLoop, parseCallExpression,
         parseArgumentList, parseArgumentListLoop, parseArgument,
         parseIndexExpression, parsePrimary, parseGroupedExpression,
         parseListLiteral, parseListLiteralLoop, parseObjectLiteral,
         parseObjectLiteralLoop, parseObjectPair, parseProgramLoop];
       repeat' split;
       all_goals
         repeat
           first
             | exact hp
             | apply PInv_sync
             | apply PInv_expectPeek
             | apply PInv_curError
             | apply PInv_peekError
             | rw [PInv_nextToken_iff]
             | apply PInv_addError
             | apply PInv_parseIntegerLiteral
             | apply PInv_parseFloatLiteral
             | apply PInv_parseMemberExpression
             | apply PInv_parsePipeExpression
             | apply ihCtx | apply ihAsg | apply ihRet | apply ihPLst
             | apply ihES | apply ihStmt | apply ihIf | apply ihFor
             | apply ihFn | apply ihPLL | apply ihBlk | apply ihBlkL
             | apply ihExpr | apply ihOr | apply ihOrL | apply ihAnd
             | apply ihAndL | apply ihEq | apply ihEqL | apply ihCmp
             | apply ihCmpL | apply ihTerm | apply ihTermL | apply ihFac
             | apply ihFacL | apply ihUn | apply ihPost | apply ihPostL
             | apply ihCall | apply ihArgL | apply ihArgLL | apply ihArg
             | apply ihIdx | apply ihPrim | apply ihGrp | apply ihLst
             | apply ihLstL | apply ihObj | apply ihObjL | apply ihPair
             | apply ihProg
             | apply PInv_expectPeek_eq (by assumption)
             | apply PInv_eqPair (by assumption)
             | dsimp only)

theorem goodObj_nativeBool (b : Bool) :
    goodObj (nativeBoolToBooleanObject b) = true := by
  cases b <;> rfl

theorem goodObj_newError (pos : Position) (m : String) :
    goodObj (newError pos m) = true := rfl

theorem isError_goodObj {v : Object} (h : isError v = true) : goodObj v = true := by
  cases v <;> simp_all [isError, Object.typeOf, ERROR_OBJ, RETURN_VALUE_OBJ,
    INTEGER_OBJ, FLOAT_OBJ, STRING_OBJ, BOOLEAN_OBJ, NULL_OBJ, BUILTIN_OBJ,
    LIST_OBJ, FUNCTION_OBJ, HASH_OBJ, goodObj]

theorem goodObj_not_returnValue {v : Object} (h : goodObj v = true) :
    v.typeOf ≠ RETURN_VALUE_OBJ := by
  cases v <;> simp_all [goodObj, Object.typeOf, RETURN_VALUE_OBJ, INTEGER_OBJ,
    FLOAT_OBJ, STRING_OBJ, BOOLEAN_OBJ, NULL_OBJ, ERROR_OBJ, BUILTIN_OBJ,
    LIST_OBJ, FUNCTION_OBJ, HASH_OBJ]

theorem retOk_unwrap {v : Object} (h : retOk v = true) :
    goodObj (unwrapReturnValue v) = true := by
  cases v <;> simp_all [retOk, unwrapReturnValue]

theorem goodObj_retOk {v : Object} (h : goodObj v = true) : retOk v = true := by
  cases v <;> simp_all [retOk, goodObj]

theorem goodObjPairs_storeGet {ps : List (String × Object)} {n : String}
    {v : Object} (h : goodObjPairs ps = true) (hg : storeGet ps n = some v) :
    goodObj v = true := by
  induction ps with
  | nil => simp [storeGet] at hg
  | cons p rest ih =>
    simp only [goodObjPairs, Bool.and_eq_true] at h
    simp only [storeGet] at hg
    by_cases hk : p.1 = n
    · rw [if_pos hk] at hg
      cases hg
      exact h.1
    · rw [if_neg hk] at hg
      exact ih h.2 hg

theorem goodObjPairs_storePut {ps : List (String × Object)} {n : String}
    {v : Object} (h : goodObjPairs ps = true) (hv : goodObj v = true) :
    goodObjPairs (storePut ps n v) = true := by
  induction ps with
  | nil => simp [storePut, goodObjPairs, hv]
  | cons p rest ih =>
    simp only [goodObjPairs, Bool.and_eq_true] at h
    simp only [storePut]
    by_cases hk : p.1 = n
    · rw [if_pos hk]
      simp [goodObjPairs, hv, h.2]
    · rw [if_neg hk]
      simp [goodObjPairs, h.1, ih h.2]

theorem goodObjList_get? {es : List Object} {k : Nat} {v : Object}
    (h : goodObjList es = true) (hg : es.get? k = some v) : goodObj v = true := by
  induction es generalizing k with
  | nil => simp at hg
  | cons e rest ih =>
    simp only [goodObjList, Bool.and_eq_true] at h
    cases k with
    | zero => cases hg; exact h.1
    | succ k => exact ih h.2 hg

theorem goodState_frame {s : EvalState} {id : Nat} {fr : Frame}
    (h : goodState s = true) (hf : s.frame? id = some fr) :
    goodObjPairs fr.store = true := by
  have hm : fr ∈ s.envs := List.get?_mem hf
  simp only [goodState, List.all_eq_true] at h
  exact h fr hm

theorem goodState_updFrame_put {s : EvalState} {id : Nat} {n : String}
    {v : Object} (hs : goodState s = true) (hv : goodObj v = true) :
    goodState (s.updFrame id (fun f => { f with store := storePut f.store n v })) = true := by
  simp only [EvalState.updFrame]
  cases hf : s.envs.get? id with
  | none => simpa [hf] using hs
  | some fr =>
    simp only [hf, goodState, List.all_eq_true]
    intro x hx
    rcases List.mem_or_eq_of_mem_set hx with hmem | rfl
    · simp only [goodState, List.all_eq_true] at hs
      exact hs x hmem
    · exact goodObjPairs_storePut (goodState_frame hs hf) hv

theorem goodState_setLocal {s : EvalState} {id : Nat} {n : String} {v : Object}
    (hs : goodState s = true) (hv : goodObj v = true) :
    goodState (envSetLocal s id n v) = true :=
  goodState_updFrame_put hs hv

theorem goodState_envSetAux {f : Nat} {s : EvalState} {id : Nat} {n : String}
    {v : Object} (hs : goodState s = true) (hv : goodObj v = true) :
    goodState (envSetAux f s id n v) = true := by
  induction f generalizing id with
  | zero => simpa [envSetAux] using hs
  | succ f ih =>
    simp only [envSetAux]
    split
    · exact hs
    · split
      · exact goodState_updFrame_put hs hv
      · split
        · split
          · exact ih
          · exact goodState_updFrame_put hs hv
        · exact goodState_updFrame_put hs hv

theorem goodState_envSet {s : EvalState} {id : Nat} {n : String} {v : Object}
    (hs : goodState s = true) (hv : goodObj v = true) :
    goodState (envSet s id n v) = true :=
  goodState_envSetAux hs hv

theorem envGetAux_good {f : Nat} {s : EvalState} {id : Nat} {n : String}
    {v : Object} (hs : goodState s = true) (hg : envGetAux f s id n = some v) :
    goodObj v = true := by
  induction f generalizing id with
  | zero => simp [envGetAux] at hg
  | succ f ih =>
    rw [envGetAux] at hg
    split at hg
    · exact absurd hg (by simp)
    · rename_i fr hf
      split at hg
      · rename_i w hsg
        cases hg
        exact goodObjPairs_storeGet (goodState_frame hs hf) hsg
      · rename_i hsg
        split at hg
        · exact ih hg
        · exact absurd hg (by simp)

theorem envGet_good {s : EvalState} {id : Nat} {n : String} {v : Object}
    (hs : goodState s = true) (hg : envGet s id n = some v) : goodObj v = true :=
  envGetAux_good hs hg

theorem goodState_newEnclosed {s : EvalState} {outer : Nat}
    (hs : goodState s = true) :
    goodState (newEnclosedEnvironment s outer).2 = true := by
  simp only [newEnclosedEnvironment, goodState, List.all_append, List.all_cons,
    List.all_nil, Bool.and_eq_true]
  exact ⟨hs, rfl, trivial⟩

theorem goodObjPairs_zip {ps : List String} {vs : List Object}
    (hv : goodObjList vs = true) : goodObjPairs (ps.zip vs) = true := by
  induction ps generalizing vs with
  | nil => rfl
  | cons p rest ih =>
    cases vs with
    | nil => rfl
    | cons v vrest =>
      simp only [goodObjList, Bool.and_eq_true] at hv
      simp only [List.zip_cons_cons, goodObjPairs, Bool.and_eq_true]
      exact ⟨hv.1, by simpa [List.zip] using ih hv.2⟩

theorem goodState_bindParams {pairs : List (String × Object)} {s : EvalState}
    {id : Nat} (hs : goodState s = true) (hp : goodObjPairs pairs = true) :
    goodState (extendFunctionEnv.bindParams s id pairs) = true := by
  induction pairs generalizing s with
  | nil => simpa [extendFunctionEnv.bindParams] using hs
  | cons p rest ih =>
    simp only [goodObjPairs, Bool.and_eq_true] at hp
    simp only [extendFunctionEnv.bindParams]
    exact ih (goodState_envSet hs hp.1) hp.2

theorem goodState_extendFunctionEnv {s : EvalState} {fnEnv : Nat}
    {params : List String} {args : List Object} (hs : goodState s = true)
    (ha : goodObjList args = true) :
    goodState (extendFunctionEnv s fnEnv params args).2 = true := by
  simp only [extendFunctionEnv]
  exact goodState_bindParams (goodState_newEnclosed hs) (goodObjPairs_zip ha)

set_option maxHeartbeats 1000000 in
theorem goodObj_evalIntegerInfix (op : TokenType) (a b : Int) (pos : Position) :
    goodObj (evalIntegerInfixExpression op a b pos) = true := by
  simp only [evalIntegerInfixExpression]
  repeat' split
  all_goals first | rfl | exact goodObj_nativeBool _

set_option maxHeartbeats 1000000 in
theorem goodObj_evalFloatInfix (op : TokenType) (a b : Rat) (pos : Position) :
    goodObj (evalFloatInfixExpression op a b pos) = true := by
  simp only [evalFloatInfixExpression]
  repeat' split
  all_goals first | rfl | exact goodObj_nativeBool _

set_option maxHeartbeats 1000000 in
theorem goodObj_evalStringInfix (op : TokenType) (a b : String) (pos : Position) :
    goodObj (evalStringInfixExpression op a b pos) = true := by
  simp only [evalStringInfixExpression]
  repeat' split
  all_goals first | rfl | exact goodObj_nativeBool _

set_option maxHeartbeats 4000000 in
theorem goodObj_evalInfixCombine (tok : Token) (l r : Object) :
    goodObj (evalInfixCombine tok l r) = true := by
  cases l <;> cases r <;> simp only [evalInfixCombine] <;>
    first
      | exact goodObj_evalIntegerInfix _ _ _ _
      | exact goodObj_evalFloatInfix _ _ _ _
      | exact goodObj_evalStringInfix _ _ _ _
      | (repeat' split
         all_goals first | rfl | exact goodObj_nativeBool _)

theorem goodObj_evalBang (v : Object) : goodObj (evalBangOperator v) = true := by
  cases v <;> first | rfl | (rename_i b; cases b <;> rfl)

theorem goodObj_evalMinus (v : Object) (pos : Position) :
    goodObj (evalMinusPrefixOperator v pos) = true := by
  cases v <;> rfl

theorem goodObjList_getD (es : List Object) (k : Nat)
    (h : goodObjList es = true) : goodObj ((es.get? k).getD NULL) = true := by
  cases hg : es.get? k with
  | none => rfl
  | some v => simpa using goodObjList_get? h hg

theorem goodObj_evalIndexOperation {l i : Object} (pos : Position)
    (hl : goodObj l = true) : goodObj (evalIndexOperation l i pos) = true := by
  unfold evalIndexOperation
  split
  · -- list with integer index
    rename_i es idx
    dsimp only
    repeat' split
    all_goals first | rfl | exact goodObjList_getD _ _ (by simpa [goodObj] using hl)
  · -- string with integer index
    dsimp only
    repeat' split
    all_goals rfl
  · -- hash with string key
    rename_i ps k
    split
    · rename_i v hg
      exact goodObjPairs_storeGet (by simpa [goodObj] using hl) hg
    · rfl
  · rfl

theorem goodState_out {s : EvalState} {o : List String}
    (hs : goodState s = true) : goodState { s with out := o } = true := hs

theorem builtinDispatch_good {name : String} {args : List Object}
    {s : EvalState} {v : Object} {s1 : EvalState} (hs : goodState s = true)
    (h : builtinDispatch name args s = .ok v s1) :
    goodState s1 = true ∧ goodObj v = true := by
  simp only [builtinDispatch] at h
  split_ifs at h <;>
    simp only [builtinPrint, builtinClock, Outcome.ok.injEq] at h <;>
    rcases h with ⟨rfl, rfl⟩ <;> exact ⟨hs, rfl⟩

set_option maxHeartbeats 4000000 in
theorem evalGoodBundle (fuel : Nat) :
    (∀ e id s v s1, goodState s = true → evalExpr fuel e id s = .ok v s1 →
      goodState s1 = true ∧ goodObj v = true) ∧
    (∀ args id s vs s1, goodState s = true →
      evalArguments fuel args id s = .ok vs s1 →
      goodState s1 = true ∧ goodObjList vs = true) ∧
    (∀ args id s err s1, goodState s = true →
      evalArguments fuel args id s = .errorOut err s1 →
      goodState s1 = true ∧ goodObj err = true) ∧
    (∀ elems id s vs s1, goodState s = true →
      evalListElems fuel elems id s = .ok vs s1 →
      goodState s1 = true ∧ goodObjList vs = true) ∧
    (∀ elems id s err s1, goodState s = true →
      evalListElems fuel elems id s = .errorOut err s1 →
      goodState s1 = true ∧ goodObj err = true) ∧
    (∀ pairs id s vs s1, goodState s = true →
      evalPairs fuel pairs id s = .ok vs s1 →
      goodState s1 = true ∧ goodObjPairs vs = true) ∧
    (∀ pairs id s err s1, goodState s = true →
      evalPairs fuel pairs id s = .errorOut err s1 →
      goodState s1 = true ∧ goodObj err = true) ∧
    (∀ fn args pos s v s1, goodState s = true → goodObjList args = true →
      applyFunction fuel fn args pos s = .ok v s1 →
      goodState s1 = true ∧ goodObj v = true) ∧
    (∀ st id s v s1, goodState s = true → evalStmt fuel st id s = .ok v s1 →
      goodState s1 = true ∧ retOk v = true) ∧
    (∀ stmts id s v s1, goodState s = true →
      evalBlockStmts fuel stmts id s = .ok v s1 →
      goodState s1 = true ∧ retOk v = true) ∧
    (∀ stmts last id s v s1, goodState s = true → retOk last = true →
      evalProgramStmts fuel stmts last id s = .ok v s1 →
      goodState s1 = true ∧ retOk v = true) ∧
    (∀ iter elems body loopId s v s1, goodState s = true →
      goodObjList elems = true →
      evalForIter fuel iter elems body loopId s = .ok v s1 →
      goodState s1 = true ∧ retOk v = true) := by
  induction fuel with
  | zero =>
    exact ⟨fun e id s v s1 hs h => by simp [evalExpr] at h,
      fun a id s vs s1 hs h => by simp [evalArguments] at h,
      fun a id s e s1 hs h => by simp [evalArguments] at h,
      fun a id s vs s1 hs h => by simp [evalListElems] at h,
      fun a id s e s1 hs h => by simp [evalListElems] at h,
      fun a id s vs s1 hs h => by simp [evalPairs] at h,
      fun a id s e s1 hs h => by simp [evalPairs] at h,
      fun f a p s v s1 hs ha h => by simp [applyFunction] at h,
      fun st id s v s1 hs h => by simp [evalStmt] at h,
      fun st id s v s1 hs h => by simp [evalBlockStmts] at h,
      fun st l id s v s1 hs hl h => by simp [evalProgramStmts] at h,
      fun i e b l s v s1 hs he h => by simp [evalForIter] at h⟩
  | succ fuel ih =>
    obtain ⟨ihE, ihA, ihAe, ihL, ihLe, ihP, ihPe, ihApp, ihS, ihB, ihPr, ihF⟩ := ih
    refine ⟨?_, ?_, ?_, ?_, ?_, ?_, ?_, ?_, ?_, ?_, ?_, ?_⟩
    · -- evalExpr
      intro e id s v s1 hs h
      cases e with
      | identifier tok name =>
        simp only [evalExpr] at h
        split at h
        · rename_i w hg
          simp only [Outcome.ok.injEq] at h
          obtain ⟨rfl, rfl⟩ := h
          exact ⟨hs, envGet_good hs hg⟩
        · simp only [Outcome.ok.injEq] at h
          obtain ⟨rfl, rfl⟩ := h
          exact ⟨hs, rfl⟩
      | integerLiteral tok val =>
        simp only [evalExpr, Outcome.ok.injEq] at h
        obtain ⟨rfl, rfl⟩ := h
        exact ⟨hs, rfl⟩
      | floatLiteral tok val =>
        simp only [evalExpr, Outcome.ok.injEq] at h
        obtain ⟨rfl, rfl⟩ := h
        exact ⟨hs, rfl⟩
      | stringLiteral tok val =>
        simp only [evalExpr, Outcome.ok.injEq] at h
        obtain ⟨rfl, rfl⟩ := h
        exact ⟨hs, rfl⟩
      | booleanLiteral tok val =>
        simp only [evalExpr, Outcome.ok.injEq] at h
        obtain ⟨rfl, rfl⟩ := h
        exact ⟨hs, goodObj_nativeBool val⟩
      | nullLiteral tok =>
        simp only [evalExpr, Outcome.ok.injEq] at h
        obtain ⟨rfl, rfl⟩ := h
        exact ⟨hs, rfl⟩
      | listLiteral tok elems =>
        simp only [evalExpr] at h
        split at h
        · rename_i vs s2 hx
          simp only [Outcome.ok.injEq] at h
          obtain ⟨rfl, rfl⟩ := h
          have hg := ihL elems id s vs s2 hs hx
          exact ⟨hg.1, by simpa [goodObj] using hg.2⟩
        · rename_i err s2 hx
          simp only [Outcome.ok.injEq] at h
          obtain ⟨rfl, rfl⟩ := h
          exact ihLe elems id s err s2 hs hx
        · simp at h
        · simp at h
      | objectLiteral tok pairs =>
        simp only [evalExpr] at h
        split at h
        · rename_i ps s2 hx
          simp only [Outcome.ok.injEq] at h
          obtain ⟨rfl, rfl⟩ := h
          have hg := ihP pairs id s ps s2 hs hx
          exact ⟨hg.1, by simpa [goodObj] using hg.2⟩
        · rename_i err s2 hx
          simp only [Outcome.ok.injEq] at h
          obtain ⟨rfl, rfl⟩ := h
          exact ihPe pairs id s err s2 hs hx
        · simp at h
        · simp at h
      | groupedExpr tok inner =>
        simp only [evalExpr] at h
        exact ihE inner id s v s1 hs h
      | prefixExpr tok op right =>
        simp only [evalExpr] at h
        split at h
        · rename_i rv s2 hx
          have hg := ihE right id s rv s2 hs hx
          by_cases h1 : isError rv = true
          · simp only [h1, if_true, Outcome.ok.injEq] at h
            obtain ⟨rfl, rfl⟩ := h
            exact hg
          · simp only [h1, Bool.false_eq_true, if_false, ite_false] at h
            by_cases h2 : tok.type = Tk.BANG
            · simp only [h2, if_true, ite_true, Outcome.ok.injEq] at h
              obtain ⟨rfl, rfl⟩ := h
              exact ⟨hg.1, goodObj_evalBang rv⟩
            · simp only [h2, if_false, ite_false] at h
              by_cases h3 : tok.type = Tk.MINUS
              · simp only [h3, if_true, ite_true, Outcome.ok.injEq] at h
                obtain ⟨rfl, rfl⟩ := h
                exact ⟨hg.1, goodObj_evalMinus rv tok.pos⟩
              · simp only [h3, if_false, ite_false, Outcome.ok.injEq] at h
                obtain ⟨rfl, rfl⟩ := h
                exact ⟨hg.1, rfl⟩
        · simp at h
        · simp at h
      | infixExpr tok left op right =>
        simp only [evalExpr] at h
        split at h
        · rename_i lv s2 hxl
          have hgl := ihE left id s lv s2 hs hxl
          by_cases h1 : isError lv = true
          · simp only [h1, if_true, ite_true, Outcome.ok.injEq] at h
            obtain ⟨rfl, rfl⟩ := h
            exact hgl
          · simp only [h1, Bool.false_eq_true, if_false, ite_false] at h
            split at h
            · rename_i rv s3 hxr
              have hgr := ihE right id s2 rv s3 hgl.1 hxr
              by_cases h2 : isError rv = true
              · simp only [h2, if_true, ite_true, Outcome.ok.injEq] at h
                obtain ⟨rfl, rfl⟩ := h
                exact hgr
              · simp only [h2, Bool.false_eq_true, if_false, ite_false,
                  Outcome.ok.injEq] at h
                obtain ⟨rfl, rfl⟩ := h
                exact ⟨hgr.1, goodObj_evalInfixCombine tok lv rv⟩
            · simp at h
            · simp at h
        · simp at h
        · simp at h
      | callExpr tok fnE args =>
        simp only [evalExpr] at h
        split at h
        · rename_i fv s2 hxf
          have hgf := ihE fnE id s fv s2 hs hxf
          by_cases h1 : isError fv = true
          · simp only [h1, if_true, ite_true, Outcome.ok.injEq] at h
            obtain ⟨rfl, rfl⟩ := h
            exact hgf
          · simp only [h1, Bool.false_eq_true, if_false, ite_false] at h
            split at h
            · rename_i argVals s3 hxa
              have hga := ihA args id s2 argVals s3 hgf.1 hxa
              exact ihApp fv argVals tok.pos s3 v s1 hga.1 hga.2 h
            · rename_i err s3 hxa
              simp only [Outcome.ok.injEq] at h
              obtain ⟨rfl, rfl⟩ := h
              exact ihAe args id s2 err s3 hgf.1 hxa
            · simp at h
            · simp at h
        · simp at h
        · simp at h
      | indexExpr tok left index =>
        simp only [evalExpr] at h
        split at h
        · rename_i lv s2 hxl
          have hgl := ihE left id s lv s2 hs hxl
          by_cases h1 : isError lv = true
          · simp only [h1, if_true, ite_true, Outcome.ok.injEq] at h
            obtain ⟨rfl, rfl⟩ := h
            exact hgl
          · simp only [h1, Bool.false_eq_true, if_false, ite_false] at h
            split at h
            · rename_i iv s3 hxi
              have hgi := ihE index id s2 iv s3 hgl.1 hxi
              by_cases h2 : isError iv = true
              · simp only [h2, if_true, ite_true, Outcome.ok.injEq] at h
                obtain ⟨rfl, rfl⟩ := h
                exact hgi
              · simp only [h2, Bool.false_eq_true, if_false, ite_false,
                  Outcome.ok.injEq] at h
                obtain ⟨rfl, rfl⟩ := h
                exact ⟨hgi.1, goodObj_evalIndexOperation tok.pos hgl.2⟩
            · simp at h
            · simp at h
        · simp at h
        · simp at h
      | memberExpr tok o m =>
        simp only [evalExpr, Outcome.ok.injEq] at h
        obtain ⟨rfl, rfl⟩ := h
        exact ⟨hs, rfl⟩
      | pipeExpr tok l f =>
        simp only [evalExpr, Outcome.ok.injEq] at h
        obtain ⟨rfl, rfl⟩ := h
        exact ⟨hs, rfl⟩
    · -- evalArguments, ok
      intro args id s vs s1 hs h
      cases args with
      | nil =>
        simp only [evalArguments, ResList.ok.injEq] at h
        obtain ⟨rfl, rfl⟩ := h
        exact ⟨hs, rfl⟩
      | cons a rest =>
        simp only [evalArguments] at h
        split at h
        · rename_i w s2 hx
          have hgw := ihE a.value id s w s2 hs hx
          by_cases h1 : isError w = true
          · simp only [h1, if_true, ite_true] at h
            exact absurd h (by simp)
          · simp only [h1, Bool.false_eq_true, if_false, ite_false] at h
            split at h
            · rename_i ws s3 hxr
              simp only [ResList.ok.injEq] at h
              obtain ⟨rfl, rfl⟩ := h
              have hgr := ihA rest id s2 ws s3 hgw.1 hxr
              exact ⟨hgr.1, by simp [goodObjList, hgw.2, hgr.2]⟩
            · simp at h
            · simp at h
            · simp at h
        · simp at h
        · simp at h
    · -- evalArguments, errorOut
      intro args id s err s1 hs h
      cases args with
      | nil => simp [evalArguments] at h
      | cons a rest =>
        simp only [evalArguments] at h
        split at h
        · rename_i w s2 hx
          have hgw := ihE a.value id s w s2 hs hx
          by_cases h1 : isError w = true
          · simp only [h1, if_true, ite_true, ResList.errorOut.injEq] at h
            obtain ⟨rfl, rfl⟩ := h
            exact hgw
          · simp only [h1, Bool.false_eq_true, if_false, ite_false] at h
            split at h
            · simp at h
            · rename_i e2 s3 hxr
              simp only [ResList.errorOut.injEq] at h
              obtain ⟨rfl, rfl⟩ := h
              exact ihAe rest id s2 e2 s3 hgw.1 hxr
            · simp at h
            · simp at h
        · simp at h
        · simp at h
    · -- evalListElems, ok
      intro elems id s vs s1 hs h
      cases elems with
      | nil =>
        simp only [evalListElems, ResList.ok.injEq] at h
        obtain ⟨rfl, rfl⟩ := h
        exact ⟨hs, rfl⟩
      | cons e rest =>
        simp only [evalListElems] at h
        split at h
        · rename_i w s2 hx
          have hgw := ihE e id s w s2 hs hx
          by_cases h1 : isError w = true
          · simp only [h1, if_true, ite_true] at h
            exact absurd h (by simp)
          · simp only [h1, Bool.false_eq_true, if_false, ite_false] at h
            split at h
            · rename_i ws s3 hxr
              simp only [ResList.ok.injEq] at h
              obtain ⟨rfl, rfl⟩ := h
              have hgr := ihL rest id s2 ws s3 hgw.1 hxr
              exact ⟨hgr.1, by simp [goodObjList, hgw.2, hgr.2]⟩
            · simp at h
            · simp at h
            · simp at h
        · simp at h
        · simp at h
    · -- evalListElems, errorOut
      intro elems id s err s1 hs h
      cases elems with
      | nil => simp [evalListElems] at h
      | cons e rest =>
        simp only [evalListElems] at h
        split at h
        · rename_i w s2 hx
          have hgw := ihE e id s w s2 hs hx
          by_cases h1 : isError w = true
          · simp only [h1, if_true, ite_true, ResList.errorOut.injEq] at h
            obtain ⟨rfl, rfl⟩ := h
            exact hgw
          · simp only [h1, Bool.false_eq_true, if_false, ite_false] at h
            split at h
            · simp at h
            · rename_i e2 s3 hxr
              simp only [ResList.errorOut.injEq] at h
              obtain ⟨rfl, rfl⟩ := h
              exact ihLe rest id s2 e2 s3 hgw.1 hxr
            · simp at h
            · simp at h
        · simp at h
        · simp at h
    · -- evalPairs, ok
      intro pairs id s vs s1 hs h
      cases pairs with
      | nil =>
        simp only [evalPairs, ResList.ok.injEq] at h
        obtain ⟨rfl, rfl⟩ := h
        exact ⟨hs, rfl⟩
      | cons p rest =>
        simp only [evalPairs] at h
        split at h
        · rename_i w s2 hx
          have hgw := ihE p.value id s w s2 hs hx
          by_cases h1 : isError w = true
          · simp only [h1, if_true, ite_true] at h
            exact absurd h (by simp)
          · simp only [h1, Bool.false_eq_true, if_false, ite_false] at h
            split at h
            · rename_i ws s3 hxr
              simp only [ResList.ok.injEq] at h
              obtain ⟨rfl, rfl⟩ := h
              have hgr := ihP rest id s2 ws s3 hgw.1 hxr
              exact ⟨hgr.1, by simp [goodObjPairs, hgw.2, hgr.2]⟩
            · simp at h
            · simp at h
            · simp at h
        · simp at h
        · simp at h
    · -- evalPairs, errorOut
      intro pairs id s err s1 hs h
      cases pairs with
      | nil => simp [evalPairs] at h
      | cons p rest =>
        simp only [evalPairs] at h
        split at h
        · rename_i w s2 hx
          have hgw := ihE p.value id s w s2 hs hx
          by_cases h1 : isError w = true
          · simp only [h1, if_true, ite_true, ResList.errorOut.injEq] at h
            obtain ⟨rfl, rfl⟩ := h
            exact hgw
          · simp only [h1, Bool.false_eq_true, if_false, ite_false] at h
            split at h
            · simp at h
            · rename_i e2 s3 hxr
              simp only [ResList.errorOut.injEq] at h
              obtain ⟨rfl, rfl⟩ := h
              exact ihPe rest id s2 e2 s3 hgw.1 hxr
            · simp at h
            · simp at h
        · simp at h
        · simp at h
    · -- applyFunction
      intro fn args pos s v s1 hs ha h
      cases fn with
      | function params body envId =>
        simp only [applyFunction] at h
        split at h
        · simp only [Outcome.ok.injEq] at h
          obtain ⟨rfl, rfl⟩ := h
          exact ⟨hs, rfl⟩
        · split at h
          · rename_i r s2 hx
            simp only [Outcome.ok.injEq] at h
            obtain ⟨rfl, rfl⟩ := h
            have hgr := ihB body.statements (extendFunctionEnv s envId params args).1
              (extendFunctionEnv s envId params args).2 r s2
              (goodState_extendFunctionEnv hs ha) hx
            exact ⟨hgr.1, retOk_unwrap hgr.2⟩
          · simp at h
          · simp at h
      | builtin name =>
        simp only [applyFunction] at h
        exact builtinDispatch_good hs h
      | integer val =>
        simp only [applyFunction, Outcome.ok.injEq] at h
        obtain ⟨rfl, rfl⟩ := h
        exact ⟨hs, rfl⟩
      | float val =>
        simp only [applyFunction, Outcome.ok.injEq] at h
        obtain ⟨rfl, rfl⟩ := h
        exact ⟨hs, rfl⟩
      | string val =>
        simp only [applyFunction, Outcome.ok.injEq] at h
        obtain ⟨rfl, rfl⟩ := h
        exact ⟨hs, rfl⟩
      | boolean val =>
        simp only [applyFunction, Outcome.ok.injEq] at h
        obtain ⟨rfl, rfl⟩ := h
        exact ⟨hs, rfl⟩
      | null =>
        simp only [applyFunction, Outcome.ok.injEq] at h
        obtain ⟨rfl, rfl⟩ := h
        exact ⟨hs, rfl⟩
      | error m l c =>
        simp only [applyFunction, Outcome.ok.injEq] at h
        obtain ⟨rfl, rfl⟩ := h
        exact ⟨hs, rfl⟩
      | list es =>
        simp only [applyFunction, Outcome.ok.injEq] at h
        obtain ⟨rfl, rfl⟩ := h
        exact ⟨hs, rfl⟩
      | returnValue u =>
        simp only [applyFunction, Outcome.ok.injEq] at h
        obtain ⟨rfl, rfl⟩ := h
        exact ⟨hs, rfl⟩
      | hash ps =>
        simp only [applyFunction, Outcome.ok.injEq] at h
        obtain ⟨rfl, rfl⟩ := h
        exact ⟨hs, rfl⟩
    · -- evalStmt
      intro st id s v s1 hs h
      cases st with
      | exprStmt tok e =>
        simp only [evalStmt] at h
        have hg := ihE e id s v s1 hs h
        exact ⟨hg.1, goodObj_retOk hg.2⟩
      | assignStmt tok name value =>
        simp only [evalStmt] at h
        split at h
        · rename_i w s2 hx
          have hgw := ihE value id s w s2 hs hx
          by_cases h1 : isError w = true
          · simp only [h1, if_true, ite_true, Outcome.ok.injEq] at h
            obtain ⟨rfl, rfl⟩ := h
            exact ⟨hgw.1, goodObj_retOk hgw.2⟩
          · simp only [h1, Bool.false_eq_true, if_false, ite_false,
              Outcome.ok.injEq] at h
            obtain ⟨rfl, rfl⟩ := h
            exact ⟨goodState_envSet hgw.1 hgw.2, rfl⟩
        · simp at h
        · simp at h
      | contextStmt tok val =>
        simp only [evalStmt, Outcome.ok.injEq] at h
        obtain ⟨rfl, rfl⟩ := h
        exact ⟨hs, rfl⟩
      | blockStmt b =>
        simp only [evalStmt] at h
        exact ihB b.statements id s v s1 hs h
      | ifStmt tok cond conseq alt =>
        simp only [evalStmt] at h
        split at h
        · rename_i cv s2 hx
          have hgc := ihE cond id s cv s2 hs hx
          by_cases h1 : isError cv = true
          · simp only [h1, if_true, ite_true, Outcome.ok.injEq] at h
            obtain ⟨rfl, rfl⟩ := h
            exact ⟨hgc.1, goodObj_retOk hgc.2⟩
          · simp only [h1, Bool.false_eq_true, if_false, ite_false] at h
            split at h
            · rename_i b
              split at h
              · exact ihB conseq.statements id s2 v s1 hgc.1 h
              · split at h
                · rename_i a
                  exact ihB a.statements id s2 v s1 hgc.1 h
                · simp only [Outcome.ok.injEq] at h
                  obtain ⟨rfl, rfl⟩ := h
                  exact ⟨hgc.1, rfl⟩
            · simp at h
        · simp at h
        · simp at h
      | forStmt tok iter iterable body =>
        simp only [evalStmt] at h
        split at h
        · rename_i iv s2 hx
          have hgi := ihE iterable id s iv s2 hs hx
          by_cases h1 : isError iv = true
          · simp only [h1, if_true, ite_true, Outcome.ok.injEq] at h
            obtain ⟨rfl, rfl⟩ := h
            exact ⟨hgi.1, goodObj_retOk hgi.2⟩
          · simp only [h1, Bool.false_eq_true, if_false, ite_false] at h
            split at h
            · rename_i elems
              exact ihF iter elems body (newEnclosedEnvironment s2 id).1
                (newEnclosedEnvironment s2 id).2 v s1
                (goodState_newEnclosed hgi.1)
                (by simpa [goodObj] using hgi.2) h
            · simp only [Outcome.ok.injEq] at h
              obtain ⟨rfl, rfl⟩ := h
              exact ⟨hgi.1, rfl⟩
        · simp at h
        · simp at h
      | returnStmt tok value =>
        cases value with
        | none =>
          simp only [evalStmt, Outcome.ok.injEq] at h
          obtain ⟨rfl, rfl⟩ := h
          exact ⟨hs, rfl⟩
        | some e =>
          simp only [evalStmt] at h
          split at h
          · rename_i w s2 hx
            have hgw := ihE e id s w s2 hs hx
            by_cases h1 : isError w = true
            · simp only [h1, if_true, ite_true, Outcome.ok.injEq] at h
              obtain ⟨rfl, rfl⟩ := h
              exact ⟨hgw.1, goodObj_retOk hgw.2⟩
            · simp only [h1, Bool.false_eq_true, if_false, ite_false,
                Outcome.ok.injEq] at h
              obtain ⟨rfl, rfl⟩ := h
              exact ⟨hgw.1, by simpa [retOk] using hgw.2⟩
          · simp at h
          · simp at h
      | funcDecl tok name params body =>
        simp only [evalStmt, Outcome.ok.injEq] at h
        obtain ⟨rfl, rfl⟩ := h
        exact ⟨goodState_envSet hs rfl, rfl⟩
    · -- evalBlockStmts
      intro stmts id s v s1 hs h
      cases stmts with
      | nil =>
        simp only [evalBlockStmts, Outcome.ok.injEq] at h
        obtain ⟨rfl, rfl⟩ := h
        exact ⟨hs, rfl⟩
      | cons st rest =>
        simp only [evalBlockStmts] at h
        split at h
        · rename_i r s2 hx
          have hgr := ihS st id s r s2 hs hx
          by_cases h1 : isError r = true
          · simp only [h1, if_true, ite_true, Outcome.ok.injEq] at h
            obtain ⟨rfl, rfl⟩ := h
            exact hgr
          · simp only [h1, Bool.false_eq_true, if_false, ite_false] at h
            by_cases h2 : r.typeOf = RETURN_VALUE_OBJ
            · simp only [h2, if_true, ite_true, Outcome.ok.injEq] at h
              obtain ⟨rfl, rfl⟩ := h
              exact hgr
            · simp only [h2, if_false, ite_false] at h
              exact ihB rest id s2 v s1 hgr.1 h
        · simp at h
        · simp at h
    · -- evalProgramStmts
      intro stmts last id s v s1 hs hlast h
      cases stmts with
      | nil =>
        simp only [evalProgramStmts, Outcome.ok.injEq] at h
        obtain ⟨rfl, rfl⟩ := h
        exact ⟨hs, hlast⟩
      | cons st rest =>
        simp only [evalProgramStmts] at h
        split at h
        · rename_i r s2 hx
          have hgr := ihS st id s r s2 hs hx
          by_cases h1 : isError r = true
          · simp only [h1, if_true, ite_true, Outcome.ok.injEq] at h
            obtain ⟨rfl, rfl⟩ := h
            exact hgr
          · simp only [h1, Bool.false_eq_true, if_false, ite_false] at h
            exact ihPr rest r id s2 v s1 hgr.1 hgr.2 h
        · simp at h
        · simp at h
    · -- evalForIter
      intro iter elems body loopId s v s1 hs he h
      cases elems with
      | nil =>
        simp only [evalForIter, Outcome.ok.injEq] at h
        obtain ⟨rfl, rfl⟩ := h
        exact ⟨hs, rfl⟩
      | cons e rest =>
        simp only [goodObjList, Bool.and_eq_true] at he
        simp only [evalForIter] at h
        split at h
        · rename_i r s2 hx
          have hgr := ihB body.statements loopId (envSetLocal s loopId iter e) r s2
            (goodState_setLocal hs he.1) hx
          by_cases h1 : isError r = true
          · simp only [h1, if_true, ite_true, Outcome.ok.injEq] at h
            obtain ⟨rfl, rfl⟩ := h
            exact hgr
          · simp only [h1, Bool.false_eq_true, if_false, ite_false] at h
            exact ihF iter rest body loopId s2 v s1 hgr.1 he.2 h
        · simp at h
        · simp at h

/-- C8: ParseProgram always returns a Program and a parser state whose
error list has at most MaxErrors = 20 entries; addError is a no-op once the
cap is reached; and both the top-level statement loop and the block
statement loop stop appending (returning their accumulator unchanged) once
the cap is hit. -/
theorem C8_parser_error_cap :
    (∀ fuel toks, PInv (ParseProgram fuel toks).2) ∧
    (∀ (p : PState) (l c : Int) (m : String),
      p.errors.length ≥ MaxErrors → p.addError l c m = p) ∧
    (∀ fuel acc p, p.errors.length ≥ MaxErrors →
      parseProgramLoop fuel acc p = (acc, p)) ∧
    (∀ fuel acc p, p.errors.length ≥ MaxErrors →
      parseBlockLoop fuel acc p = (acc, p)) := by
  refine ⟨?_, ?_, ?_, ?_⟩
  · intro fuel toks
    obtain ⟨-, -, -, -, -, -, -, -, -, -, -, -, -, -, -, -, -, -, -, -, -,
      -, -, -, -, -, -, -, -, -, -, -, -, -, -, -, -, -, -, -, hProg⟩ :=
      parserInvBundle fuel
    exact hProg [] (parserNew toks) (Nat.zero_le MaxErrors)
  · intro p l c m h
    unfold PState.addError
    rw [if_pos h]
  · intro fuel acc p h
    cases fuel with
    | zero => rfl
    | succ fuel =>
      simp only [parseProgramLoop]
      split_ifs
      all_goals first | rfl | exact absurd h (by assumption)
  · intro fuel acc p h
    cases fuel with
    | zero => rfl
    | succ fuel =>
      simp only [parseBlockLoop]
      split_ifs
      all_goals first | rfl | exact absurd h (by assumption)

theorem C8_parser_error_cap_witness :
    PInv (ParseProgram 3 []).2 ∧
    PState.addError p20 1 1 "overflow" = p20 ∧
    parseProgramLoop 3 [] p20Ident = ([], p20Ident) ∧
    parseBlockLoop 3 [] p20Ident = ([], p20Ident) :=
  ⟨C8_parser_error_cap.1 3 [],
   C8_parser_error_cap.2.1 p20 1 1 "overflow" (by decide),
   C8_parser_error_cap.2.2.1 3 [] p20Ident (by decide),
   C8_parser_error_cap.2.2.2 3 [] p20Ident (by decide)⟩

/-- C1: with a fresh environment, [1,2,3][-1] evaluates to Integer 3,
[1,2,3][3] evaluates to an Error whose message is exactly
"index out of bounds: 3 (length: 3)", and indexing an empty hash with the
string "missing" evaluates to Null, not an Error. -/
theorem C1_index_examples :
    runValue 64 idxNegProg = some (Object.integer 3) ∧
    runValue 64 idxOobProg =
      some (Object.error "index out of bounds: 3 (length: 3)" 1 1) ∧
    runValue 64 idxHashMissingProg = some Object.null :=
  ⟨rfl, rfl, rfl⟩

/-- C2, evaluation at the failing input: in x = 1; fn f(x) with body
return 0; then f(99); x; the call binds the argument through the
outward-searching Environment.Set, so it overwrites the global x instead of
creating a binding in the call frame: the program yields Integer 99, the
global store holds x = 99, and the call frame store stays empty. -/
theorem C2_failing_input_eval :
    runValue 64 paramShadowProg = some (Object.integer 99) ∧
    (match runProgram 64 paramShadowProg with
      | .ok _ s =>
        storeGet ((s.frame? 0).getD ⟨[], none⟩).store "x" = some (Object.integer 99) ∧
        ((s.frame? 1).getD ⟨[], none⟩).store = []
      | _ => False) :=
  ⟨rfl, rfl, rfl⟩

/-- C3, counterexample: the spec program sum=0; for (x in [1,2,3]) with body
sum = sum + x; then sum; does not evaluate to Integer 10. -/
theorem C3_counterexample :
    runValue 64 sumProg ≠ some (Object.integer 10) := by
  have h : runValue 64 sumProg = some (Object.integer 6) := rfl
  rw [h]
  simp

/-- C3, amended: the program evaluates to Integer 6 (1+2+3), and the
assignments in the loop body do update the outer sum binding outward through
the child environment of the loop: the final global store holds sum = 6
while the loop frame holds only the iterator x. -/
theorem C3_amended_for_loop :
    runValue 64 sumProg = some (Object.integer 6) ∧
    (match runProgram 64 sumProg with
      | .ok _ s =>
        s.envs.map Frame.store =
          [[("sum", Object.integer 6)], [("x", Object.integer 3)]]
      | _ => False) :=
  ⟨rfl, rfl⟩

/-- C6: 10 / 0; and 10.0 / 0.0; both evaluate to an Error value whose
message is exactly "division by zero" (the divisor is tested before any
host-level division is performed). -/
theorem C6_division_by_zero :
    runValue 64 divZeroIntProg = some (Object.error "division by zero" 1 1) ∧
    runValue 64 divZeroFloatProg = some (Object.error "division by zero" 1 1) :=
  ⟨rfl, rfl⟩

/-- C4, counterexample: for the infix expression 1 && 2 both operands are
Integers, so evaluation takes the Integer-Integer dispatch before the
truthiness arm and produces the unknown-operator error, not the Boolean
combination of the coerced operands that the claim promises. -/
theorem C4_counterexample :
    runValue 64 intAndProg =
      some (Object.error "unknown operator: INTEGER && INTEGER" 1 1) ∧
    runValue 64 intAndProg ≠
      some (nativeBoolToBooleanObject
        (isTruthy (Object.integer 1) && isTruthy (Object.integer 2))) := by
  constructor
  · rfl
  · have h : runValue 64 intAndProg =
        some (Object.error "unknown operator: INTEGER && INTEGER" 1 1) := rfl
    rw [h]
    simp [nativeBoolToBooleanObject, isTruthy, TRUE]

/-- C4, amended: for an infix && or || expression whose operands evaluate
without error, both operands are always evaluated (the right one in the
state left by the left one — no short-circuiting) and, provided the operand
type pair is not one of the homogeneous Integer-Integer, Float-Float or
String-String pairs that the evaluator dispatches on first, the result is
the Boolean singleton of the conjunction/disjunction of the truthiness
coercions of the two values. -/
theorem C4_amended_truthiness (fuel : Nat) (tok : Token) (opLit : String)
    (l r : Expr) (id : Nat) (s s1 s2 : EvalState) (lv rv : Object)
    (hop : tok.type = Tk.AND ∨ tok.type = Tk.OR)
    (hl : evalExpr fuel l id s = .ok lv s1) (hle : isError lv = false)
    (hr : evalExpr fuel r id s1 = .ok rv s2) (hre : isError rv = false)
    (hint : ¬(lv.typeOf = INTEGER_OBJ ∧ rv.typeOf = INTEGER_OBJ))
    (hflt : ¬(lv.typeOf = FLOAT_OBJ ∧ rv.typeOf = FLOAT_OBJ))
    (hstr : ¬(lv.typeOf = STRING_OBJ ∧ rv.typeOf = STRING_OBJ)) :
    evalExpr (fuel + 1) (.infixExpr tok l opLit r) id s =
      .ok (nativeBoolToBooleanObject
        (if tok.type = Tk.AND then (isTruthy lv && isTruthy rv)
         else (isTruthy lv || isTruthy rv))) s2 := by
  simp only [evalExpr]
  rw [hl]
  simp only [hle, Bool.false_eq_true, if_false, ite_false]
  rw [hr]
  simp only [hre, Bool.false_eq_true, if_false, ite_false]
  rcases hop with h | h <;>
    cases lv <;> cases rv <;>
      simp_all [evalInfixCombine, Object.typeOf, INTEGER_OBJ, FLOAT_OBJ,
        STRING_OBJ, Tk.EQ, Tk.NOT_EQ, Tk.OR, Tk.AND, Token.pos]

/-- C4, witness for the amended theorem at the expression true && 1. -/
theorem C4_amended_witness :
    evalExpr 5 mixedAndExpr 0 st0 =
      .ok (nativeBoolToBooleanObject
        (if (tk Tk.AND "&&").type = Tk.AND
         then (isTruthy TRUE && isTruthy (Object.integer 1))
         else (isTruthy TRUE || isTruthy (Object.integer 1)))) st0 :=
  C4_amended_truthiness 4 (tk Tk.AND "&&") "&&"
    (.booleanLiteral (tk Tk.TRUE "true") true) (eInt 1) 0 st0 st0 st0
    TRUE (Object.integer 1) (Or.inl rfl) rfl rfl rfl rfl
    (by decide) (by decide) (by decide)

/-- C5: a block whose statements all evaluate without an Error or a
ReturnValue evaluates to the Null singleton — the loop-local result of
evalBlock shadows the returned variable, so the last statement value is
discarded. -/
theorem C5_block_null (fuel : Nat) (stmts : List Stmt) (id : Nat)
    (s : EvalState) (v : Object) (s1 : EvalState)
    (h : evalBlockStmts fuel stmts id s = .ok v s1)
    (hne : isError v = false) (hnr : v.typeOf ≠ RETURN_VALUE_OBJ) :
    v = NULL := by
  induction fuel generalizing stmts s with
  | zero => simp [evalBlockStmts] at h
  | succ fuel ih =>
    match stmts with
    | [] =>
      simp only [evalBlockStmts, Outcome.ok.injEq] at h
      exact h.1.symm
    | st :: rest =>
      simp only [evalBlockStmts] at h
      cases hst : evalStmt fuel st id s with
      | ok r s2 =>
        rw [hst] at h
        by_cases h1 : isError r = true
        · simp only [h1, if_true, ite_true, Outcome.ok.injEq] at h
          rw [← h.1] at hne
          rw [hne] at h1
          exact absurd h1 (by simp)
        · by_cases h2 : r.typeOf = RETURN_VALUE_OBJ
          · simp only [h1, h2, Bool.false_eq_true, if_false, if_true,
              ite_false, ite_true, Outcome.ok.injEq] at h
            rw [← h.1] at hnr
            exact absurd h2 hnr
          · simp only [h1, h2, Bool.false_eq_true, if_false, ite_false] at h
            exact ih rest s2 h
      | crash => rw [hst] at h; exact absurd h (by simp)
      | fuelOut => rw [hst] at h; exact absurd h (by simp)

/-- C5, witness: the block holding the single statement 5; evaluates to
NULL from the empty state. -/
theorem C5_block_null_witness :
    evalBlockStmts 4 c5Block 0 st0 = .ok NULL st0 ∧ NULL = NULL :=
  ⟨rfl, C5_block_null 4 c5Block 0 st0 NULL st0 rfl rfl (by decide)⟩

/-- C7: an if statement first evaluates its condition; an Error condition
value is propagated; a Boolean condition selects the consequence block, the
alternative block, or Null when false without an alternative; any other
condition value hits the unguarded Boolean type assertion and crashes the
host instead of producing an Error value. -/
theorem C7_if_semantics (fuel : Nat) (tok : Token) (cond : Expr)
    (conseq : Block) (alt : Option Block) (id : Nat) (s s1 : EvalState)
    (cv : Object)
    (hc : evalExpr fuel cond id s = .ok cv s1) :
    (isError cv = true →
      evalStmt (fuel + 1) (.ifStmt tok cond conseq alt) id s = .ok cv s1) ∧
    (∀ b : Bool, cv = .boolean b →
      evalStmt (fuel + 1) (.ifStmt tok cond conseq alt) id s =
        (if b then evalBlockStmts fuel conseq.statements id s1
         else
           match alt with
           | some a => evalBlockStmts fuel a.statements id s1
           | none => .ok NULL s1)) ∧
    (isError cv = false → cv.typeOf ≠ BOOLEAN_OBJ →
      evalStmt (fuel + 1) (.ifStmt tok cond conseq alt) id s = .crash) := by
  refine ⟨?_, ?_, ?_⟩
  · intro he
    simp only [evalStmt]
    rw [hc]
    simp [he]
  · intro b hb
    subst hb
    simp only [evalStmt]
    rw [hc]
    simp only [isError, Object.typeOf, BOOLEAN_OBJ, ERROR_OBJ]
    cases b <;> simp
  · intro he ht
    simp only [evalStmt]
    rw [hc]
    simp only [he, Bool.false_eq_true, if_false, ite_false]
    cases cv <;> simp_all [Object.typeOf, BOOLEAN_OBJ, isError, ERROR_OBJ]

/-- C7, witness at if (true) with consequence 5; and no else, from the
empty state. -/
theorem C7_if_semantics_witness :
    evalStmt 5 ifTrueStmt 0 st0 =
      (if true then evalBlockStmts 4 c5Block 0 st0
       else
         match (none : Option Block) with
         | some a => evalBlockStmts 4 a.statements 0 st0
         | none => .ok NULL st0) :=
  (C7_if_semantics 4 (tk Tk.IF "if")
      (.booleanLiteral (tk Tk.TRUE "true") true)
      (.mk (tk Tk.LBRACE "\x7b") c5Block) none 0 st0 st0 (.boolean true)
      rfl).2.1 true rfl

/-- C9: a ReturnValue produced by a statement short-circuits the remaining
statements of its block, and a ReturnValue never leaks past a function call:
whenever the evaluation of a CallExpression in a good state completes with a
value, that value is not of RETURN_VALUE type (applyFunction unwraps it to
the underlying Value at the call boundary). -/
theorem C9_return_value_confined :
    (∀ fuel st rest id s u s1,
      evalStmt fuel st id s = .ok (.returnValue u) s1 →
      evalBlockStmts (fuel + 1) (st :: rest) id s = .ok (.returnValue u) s1) ∧
    (∀ fuel tok f args id s v s1, goodState s = true →
      evalExpr fuel (.callExpr tok f args) id s = .ok v s1 →
      v.typeOf ≠ RETURN_VALUE_OBJ) := by
  constructor
  · intro fuel st rest id s u s1 h
    simp only [evalBlockStmts]
    rw [h]
    rfl
  · intro fuel tok f args id s v s1 hs h
    exact goodObj_not_returnValue
      ((evalGoodBundle fuel).1 (.callExpr tok f args) id s v s1 hs h).2

/-- C9, witness: in the state binding fn f() with body return 10; the call
f() completes with Integer 10, not a ReturnValue, and a return statement
short-circuits the rest of its block. -/
theorem C9_return_value_confined_witness :
    goodState stateWithF = true ∧
    (Object.integer 10).typeOf ≠ RETURN_VALUE_OBJ ∧
    evalBlockStmts 5
      (Stmt.returnStmt (tk Tk.RETURN "return") (some (eInt 10)) :: c5Block) 0 st0 =
      .ok (.returnValue (.integer 10)) st0 :=
  ⟨by decide,
   C9_return_value_confined.2 10 (tk Tk.LPAREN "(") (eId "f") [] 0 stateWithF
     (.integer 10) stateWithFAfter (by decide) rfl,
   C9_return_value_confined.1 4
     (Stmt.returnStmt (tk Tk.RETURN "return") (some (eInt 10))) c5Block 0 st0
     (.integer 10) st0 rfl⟩

/-- C10: with outer = Env(), outer.Set x 10, inner = Enclosed(outer):
inner.Get x finds 10; after inner.SetLocal x 99, inner.Get x is 99 while
outer.Get x is still 10. -/
theorem C10_scoping :
    envGet scopeInner.2 scopeInner.1 "x" = some (Object.integer 10) ∧
    envGet scopeAfterLocal scopeInner.1 "x" = some (Object.integer 99) ∧
    envGet scopeAfterLocal scopeOuter.1 "x" = some (Object.integer 10) :=
  ⟨rfl, rfl, rfl⟩

end Awsl
